import Mathlib

/-!
DefiGuard wallet: the view-model of `src/pages/wallet/index.js` and the
helpers of `src/utils/web3Utils.js`.

The React component `Wallet` is embedded as a record of its `useState` cells
(`WalletState`) and one function per handler, mapping the state at the time of
the event and the answers of the outside world (`Env`: the injected provider,
the web3 library, the clock) to the state after the handler has run and to the
list of provider calls it issued. The JavaScript built-ins the handlers use
(`parseFloat`, `toFixed`, `trim`, the comparison and subtraction of Numbers,
`findIndex`, `filter`, `slice`) are embedded after ECMA-262, Numbers being
exact IEEE 754 binary64 values.
-/

namespace DefiGuard

deriving instance DecidableEq for Except

namespace JS

/-! ## JavaScript array primitives used by the page -/

/-- Scan of `Array.prototype.findIndex` from position `i`: the index of the first
element satisfying `p`, or `-1`. -/
def findIndexFrom {α : Type} (p : α → Bool) : List α → Nat → Int
  | [], _ => -1
  | x :: xs, i => if p x then (i : Int) else findIndexFrom p xs (i + 1)

/-- The method `Array.prototype.findIndex`. -/
def findIndex {α : Type} (p : α → Bool) (self : List α) : Int :=
  findIndexFrom p self 0

/-- Scan of `Array.prototype.filter` from position `i`, the callback receiving
the element, its index and the whole array. -/
def filterFrom {α : Type} (p : α → Nat → List α → Bool) (self : List α) :
    List α → Nat → List α
  | [], _ => []
  | x :: xs, i =>
    if p x i self then x :: filterFrom p self xs (i + 1) else filterFrom p self xs (i + 1)

/-- The method `Array.prototype.filter` with the three-argument callback. -/
def filter {α : Type} (p : α → Nat → List α → Bool) (self : List α) : List α :=
  filterFrom p self self 0

/-- A relative index of `Array.prototype.slice` clamped into `0 .. len`: a
negative one counts from the end. -/
def clampIndex (len : Nat) (i : Int) : Nat :=
  if i < 0 then ((len : Int) + i).toNat else min i.toNat len

/-- The method `Array.prototype.slice(start, end)` for integer arguments. -/
def slice {α : Type} (self : List α) (start stop : Int) : List α :=
  (self.take (clampIndex self.length stop)).drop (clampIndex self.length start)

/-! ## ECMAScript Number values (IEEE 754 binary64), exactly -/


/-- A Number value; `finite neg m e` is `(-1)^neg * m * 2^e`, so `finite true 0 0`
is `-0`. The values built by `roundToNumber` have `m ≤ 2^53` and
`-1074 ≤ e ≤ 971`, the binary64 range. -/
inductive Number
  | NaN
  | Infinity (neg : Bool)
  | finite (neg : Bool) (m : Nat) (e : Int)
deriving DecidableEq, Repr

/-- Number of binary digits of `n`, with `fuel` bounding the recursion. -/
def bitLengthAux : Nat → Nat → Nat
  | 0, _ => 0
  | fuel + 1, n => if n = 0 then 0 else bitLengthAux fuel (n / 2) + 1

/-- Number of binary digits of `n` (`0` for `0`). -/
def bitLength (n : Nat) : Nat := bitLengthAux n n

/-- The natural number `2^|e|` placed on the side given by the sign of `e`: the
pair `(a, b)` with `a / b = 2^e`. -/
def pow2Pair (e : Int) : Nat × Nat :=
  if 0 ≤ e then (2 ^ e.toNat, 1) else (1, 2 ^ (-e).toNat)

/-- The value `⌊log2 (num / den)⌋` for positive `num` and `den`. -/
def floorLog2 (num den : Nat) : Int :=
  let e0 : Int := (bitLength num : Int) - (bitLength den : Int)
  let p := pow2Pair e0
  if den * p.1 ≤ num * p.2 then e0 else e0 - 1

/-- The Number value `𝔽(± num / den)` of ECMA-262: the non-negative rational
`num / den` rounded to the nearest binary64 value, ties to even, overflowing to
`Infinity`; `neg` is the sign. -/
def roundToNumber (neg : Bool) (num den : Nat) : Number :=
  if num = 0 then .finite neg 0 0
  else
    let q : Int := max (floorLog2 num den - 52) (-1074)
    let p := pow2Pair q
    let n := num * p.2
    let d := den * p.1
    let fl := n / d
    let r := n % d
    let m := if 2 * r < d then fl else if d < 2 * r then fl + 1
      else if fl % 2 = 0 then fl else fl + 1
    if 971 < q ∨ (q = 971 ∧ 2 ^ 53 ≤ m) then .Infinity neg else .finite neg m q

/-- The integer `± m * 2^(e - base)` for `base ≤ e`. -/
def scaledInt (neg : Bool) (m : Nat) (e base : Int) : Int :=
  let v : Int := (m * 2 ^ (e - base).toNat : Nat)
  if neg then -v else v

/-- The abstract operation `Number::lessThan(x, y)`: `none` is `undefined`
(an operand is `NaN`). -/
def Number.lessThan : Number → Number → Option Bool
  | .NaN, _ => none
  | _, .NaN => none
  | .Infinity n1, .Infinity n2 => some (n1 && !n2)
  | .Infinity n1, .finite _ _ _ => some n1
  | .finite _ _ _, .Infinity n2 => some (!n2)
  | .finite n1 m1 e1, .finite n2 m2 e2 =>
    let base := min e1 e2
    some (decide (scaledInt n1 m1 e1 base < scaledInt n2 m2 e2 base))

/-- The operator `x <= y` on Numbers. -/
def Number.le (x y : Number) : Bool :=
  match Number.lessThan y x with
  | some false => true
  | _ => false

/-- The operator `x > y` on Numbers. -/
def Number.gt (x y : Number) : Bool :=
  match Number.lessThan y x with
  | some true => true
  | _ => false

/-- The operator `x < y` on Numbers. -/
def Number.lt (x y : Number) : Bool :=
  match Number.lessThan x y with
  | some true => true
  | _ => false

/-- The abstract operation `Number::unaryMinus`. -/
def Number.neg : Number → Number
  | .NaN => .NaN
  | .Infinity n => .Infinity (!n)
  | .finite n m e => .finite (!n) m e

/-- The abstract operation `Number::add`. -/
def Number.add : Number → Number → Number
  | .NaN, _ => .NaN
  | _, .NaN => .NaN
  | .Infinity n1, .Infinity n2 => if n1 = n2 then .Infinity n1 else .NaN
  | .Infinity n1, .finite _ _ _ => .Infinity n1
  | .finite _ _ _, .Infinity n2 => .Infinity n2
  | .finite n1 m1 e1, .finite n2 m2 e2 =>
    if m1 = 0 ∧ m2 = 0 then .finite (n1 && n2) 0 0
    else
      let base := min e1 e2
      let s : Int := scaledInt n1 m1 e1 base + scaledInt n2 m2 e2 base
      let p := pow2Pair base
      roundToNumber (decide (s < 0)) (s.natAbs * p.1) p.2

/-- The operator `x - y` on Numbers (`Number::subtract`). -/
def Number.sub (x y : Number) : Number := Number.add x (Number.neg y)


/-! ## ECMAScript strings -/

/-- The characters of `WhiteSpace` and `LineTerminator` (ECMA-262, 12.2 and
12.3), which `String.prototype.trim` and `parseFloat` strip. -/
def isWhiteSpace (c : Char) : Bool :=
  let n := c.toNat
  n = 0x9 || n = 0xA || n = 0xB || n = 0xC || n = 0xD || n = 0x20 || n = 0xA0 ||
  n = 0x1680 || (0x2000 ≤ n && n ≤ 0x200A) || n = 0x2028 || n = 0x2029 ||
  n = 0x202F || n = 0x205F || n = 0x3000 || n = 0xFEFF

/-- The abstract operation `TrimString(s, start)` on the characters of `s`. -/
def trimStart (cs : List Char) : List Char := cs.dropWhile isWhiteSpace

/-- The method `String.prototype.trim`. -/
def trim (s : String) : String :=
  String.mk (trimStart (trimStart s.data).reverse).reverse

/-- The property `length` of a string: its number of UTF-16 code units. -/
def length (s : String) : Nat :=
  (s.data.map (fun c => if c.toNat < 0x10000 then 1 else 2)).sum

/-- Whether `c` is one of `0` ... `9`. -/
def isDecimalDigit (c : Char) : Bool := 48 ≤ c.toNat && c.toNat ≤ 57

/-- The mathematical value of a string of decimal digits. -/
def digitsValue (ds : List Char) : Nat :=
  ds.foldl (fun acc c => 10 * acc + (c.toNat - 48)) 0

/-- The longest `ExponentPart` (`e` or `E`, an optional sign, digits) at the
front of `cs`, as its signed value; `0` when there is none. -/
def exponentPart (cs : List Char) : Int :=
  match cs with
  | c :: rest =>
    if c = 'e' ∨ c = 'E' then
      match rest with
      | '+' :: ds =>
        if (ds.takeWhile isDecimalDigit).isEmpty then 0
        else (digitsValue (ds.takeWhile isDecimalDigit) : Int)
      | '-' :: ds =>
        if (ds.takeWhile isDecimalDigit).isEmpty then 0
        else -(digitsValue (ds.takeWhile isDecimalDigit) : Int)
      | ds =>
        if (ds.takeWhile isDecimalDigit).isEmpty then 0
        else (digitsValue (ds.takeWhile isDecimalDigit) : Int)
    else 0
  | [] => 0

/-- The value of the longest prefix of `cs` that is a
`StrUnsignedDecimalLiteral`, with sign `neg`; `NaN` when no prefix is one. -/
def parseUnsignedDecimal (neg : Bool) (cs : List Char) : Number :=
  if "Infinity".data.isPrefixOf cs then .Infinity neg
  else
    let ip := cs.takeWhile isDecimalDigit
    let rest := cs.dropWhile isDecimalDigit
    match rest with
    | '.' :: rest1 =>
      let fp := rest1.takeWhile isDecimalDigit
      if ip.isEmpty ∧ fp.isEmpty then .NaN
      else
        let k : Int := exponentPart (rest1.dropWhile isDecimalDigit) - (fp.length : Int)
        let n := digitsValue (ip ++ fp)
        if 0 ≤ k then roundToNumber neg (n * 10 ^ k.toNat) 1
        else roundToNumber neg n (10 ^ (-k).toNat)
    | _ =>
      if ip.isEmpty then .NaN
      else
        let k : Int := exponentPart rest
        let n := digitsValue ip
        if 0 ≤ k then roundToNumber neg (n * 10 ^ k.toNat) 1
        else roundToNumber neg n (10 ^ (-k).toNat)

/-- The global function `parseFloat` on a string argument (ECMA-262, 19.2.4):
leading white space is skipped and the longest prefix that is a
`StrDecimalLiteral` is converted, correctly rounded. -/
def parseFloat (s : String) : Number :=
  match trimStart s.data with
  | '+' :: cs => parseUnsignedDecimal false cs
  | '-' :: cs => parseUnsignedDecimal true cs
  | cs => parseUnsignedDecimal false cs

/-- The decimal digits of `n`, most significant first, prepended to `acc`;
`fuel` bounds the recursion. -/
def natDigitsAux : Nat → Nat → List Char → List Char
  | 0, _, acc => acc
  | fuel + 1, n, acc =>
    if n < 10 then Char.ofNat (48 + n) :: acc
    else natDigitsAux fuel (n / 10) (Char.ofNat (48 + n % 10) :: acc)

/-- The decimal representation of the natural number `n`. -/
def natDigits (n : Nat) : List Char := natDigitsAux (n + 1) n []

/-- Whether the finite magnitude `m1 * 2^e1` is the magnitude of a finite
Number. -/
def sameMagnitude (m1 : Nat) (e1 : Int) : Number → Bool
  | .finite _ m2 e2 =>
    decide (scaledInt false m1 e1 (min e1 e2) = scaledInt false m2 e2 (min e1 e2))
  | _ => false

/-- Search of `Number::toString` for a fixed digit count `k` and decimal point
position `n`: the `k`-digit integers `s` next to `x / 10^(n-k)` for which
`𝔽(s * 10^(n-k))` is `x = m * 2^e`, the closest to `x` first. -/
def shortestCandidates (m : Nat) (e : Int) (x k n : Nat) : List Nat :=
  let p := 10 ^ (n - k)
  let ok := fun (s : Nat) =>
    decide (10 ^ (k - 1) ≤ s) && decide (s < 10 ^ k) &&
      sameMagnitude m e (roundToNumber false (s * p) 1)
  let lo := x / p
  let hi := x / p + 1
  let pair := if hi * p - x < x - lo * p then [hi, lo] else [lo, hi]
  pair.filter ok

/-- Search of `Number::toString` over the digit counts `k, k+1, ...`: the first
`(s, n)` found, trying `fuel` digit counts. -/
def shortestDigits (m : Nat) (e : Int) (x d : Nat) : Nat → Nat → Option (Nat × Nat)
  | 0, _ => none
  | fuel + 1, k =>
    match shortestCandidates m e x k d, shortestCandidates m e x k (d + 1) with
    | s :: _, _ => some (s, d)
    | [], s :: _ => some (s, d + 1)
    | [], [] => shortestDigits m e x d fuel (k + 1)

/-- The abstract operation `Number::toString(x, 10)` for a finite `x = m * 2^e`
with `x ≥ 10^21`: the shortest digits that round to `x`, in exponential form. -/
def largeToString (m : Nat) (e : Int) : String :=
  let x := m * 2 ^ e.toNat
  let d := (natDigits x).length
  match shortestDigits m e x d 17 1 with
  | some (s, n) =>
    match natDigits s with
    | [c] => String.mk ([c] ++ "e+".data ++ natDigits (n - 1))
    | c :: cs => String.mk ([c, '.'] ++ cs ++ "e+".data ++ natDigits (n - 1))
    | [] => ""
  | none => String.mk (natDigits x)

/-- The method `Number.prototype.toFixed(fractionDigits)` for
`0 ≤ fractionDigits ≤ 100` (ECMA-262, 21.1.3.3). -/
def Number.toFixed (x : Number) (f : Nat) : String :=
  match x with
  | .NaN => "NaN"
  | .Infinity neg => if neg then "-Infinity" else "Infinity"
  | .finite neg m e =>
    let s := if neg ∧ m ≠ 0 then "-" else ""
    let p := pow2Pair e
    if 10 ^ 21 * p.2 ≤ m * p.1 then s ++ largeToString m e
    else
      let num := m * p.1 * 10 ^ f
      let n := if p.2 ≤ 2 * (num % p.2) then num / p.2 + 1 else num / p.2
      let ds := natDigits n
      let padded := List.replicate (f + 1 - ds.length) '0' ++ ds
      if f = 0 then s ++ String.mk padded
      else
        s ++ String.mk (padded.take (padded.length - f) ++ ['.'] ++
          padded.drop (padded.length - f))


end JS

/-! ## Data model -/

/-- The direction tag of a record: `"sent"` or `"received"`. -/
inductive TxType
  | sent
  | received
deriving DecidableEq, Repr

/-- The `blockNumber` field of a displayed record: the string `"Pending"`, a
block height, or `null` (a scanned transaction that is not yet in a block). -/
inductive BlockField
  | Pending
  | number (n : Nat)
  | null
deriving DecidableEq, Repr

/-- A record of the displayed history (`transactions`, `manualTransactions`);
`from_` and `to_` are the fields `from` and `to`, `none` being `null`. -/
structure TransactionRecord where
  hash : String
  from_ : Option String
  to_ : Option String
  value : String
  blockNumber : BlockField
  timestamp : String
  type : TxType
deriving DecidableEq, Repr

/-- A record returned by `getTransactionHistory` of web3Utils.js, which also
carries `gasPrice` and `gas`. -/
structure HistoryRecord where
  hash : String
  from_ : Option String
  to_ : Option String
  value : String
  blockNumber : BlockField
  timestamp : String
  type : TxType
  gasPrice : String
  gas : Nat
deriving DecidableEq, Repr

/-- A transaction object of a block fetched with `getBlock(n, true)`; `from_`
and `to_` are `none` when the field is `null` (`to` of a contract creation),
`blockNumber` is `none` when it is `null`. -/
structure ChainTx where
  hash : String
  from_ : Option String
  to_ : Option String
  value : String
  blockNumber : Option Nat
  gasPrice : String
  gas : Nat
deriving DecidableEq, Repr

/-- A block object; `transactions` is `none` when the property is missing. -/
structure Block where
  transactions : Option (List ChainTx)
deriving DecidableEq, Repr

/-- The object passed to `eth.estimateGas` and `eth.sendTransaction`; `gas` and
`gasPrice` are absent in the gas estimate. -/
structure TxRequest where
  from_ : String
  to_ : String
  value : String
  gas : Option Nat
  gasPrice : Option String
deriving DecidableEq, Repr

/-- The calls a handler issues to the injected provider, in order. -/
inductive ProviderCall
  | requestAccounts
  | netGetId
  | getBalance (address : String)
  | getBlockNumber
  | getBlock (blockNumber : Nat)
  | estimateGas (tx : TxRequest)
  | sendTransaction (tx : TxRequest)
deriving DecidableEq, Repr

/-- A `Web3` instance, as held in the `web3` state cell. -/
structure Web3Instance where
  id : Nat
deriving DecidableEq, Repr

/-- The `sendForm` state cell. -/
structure SendForm where
  recipient : String
  amount : String
  gasPrice : String
deriving DecidableEq, Repr

/-- The `useState` cells of the `Wallet` component (wallet/index.js, lines
19-42). -/
structure WalletState where
  web3 : Option Web3Instance
  account : String
  balance : String
  isConnected : Bool
  loading : Bool
  connectLoading : Bool
  error : String
  success : String
  demoMode : Bool
  sendForm : SendForm
  transactions : List TransactionRecord
  manualTransactions : List TransactionRecord
  networkId : Option Nat
  networkName : String
deriving DecidableEq, Repr

/-- The initial values of the state cells. -/
def WalletState.initial : WalletState where
  web3 := none
  account := ""
  balance := "0"
  isConnected := false
  loading := false
  connectLoading := false
  error := ""
  success := ""
  demoMode := false
  sendForm := { recipient := "", amount := "", gasPrice := "20" }
  transactions := []
  manualTransactions := []
  networkId := none
  networkName := ""

/-- Everything a handler obtains from outside the component while it runs: the
answers of the injected provider (`.error msg` is a rejected promise or a thrown
error with that message), the pure helpers of the web3 library, and the host
(clock, random source, case mapping, message of the `TypeError` raised by a
property access on `null`). -/
structure Env where
  ethereum : Bool
  newWeb3 : Web3Instance
  requestAccounts : Except String (List String)
  netGetId : Except String Nat
  getBalance : String → Except String String
  getBlockNumber : Except String Nat
  getBlock : Nat → Except String (Option Block)
  estimateGas : TxRequest → Except String Nat
  sendTransaction : TxRequest → Except String String
  isAddress : String → Bool
  toWei : String → String → Except String String
  fromWei : String → String → Except String String
  toLowerCase : String → String
  now : String
  fiveMinutesAgo : String
  randomHex : String
  nullMessage : String

/-- The state after a handler has run, and the provider calls it issued. -/
structure Outcome where
  state : WalletState
  calls : List ProviderCall

/-- The result of an asynchronous helper that may throw: the provider calls it
issued and its value or the message of the error. -/
structure Run (α : Type) where
  calls : List ProviderCall
  result : Except String α

/-- The Number literal `0`. -/
def zero : JS.Number := .finite false 0 0

/-- The Number literal `0.001`. -/
def demoFee : JS.Number := JS.roundToNumber false 1 1000

/-! ## The history scanners -/

/-- The callback of `block.transactions.forEach` in the page's
`getTransactionHistory` (wallet/index.js, lines 133-146): the record pushed for
`tx`, if any, or the error thrown by `fromWei`. -/
def pageScanTx (env : Env) (address : String) (tx : ChainTx) :
    Except String (Option TransactionRecord) :=
  if tx.from_ = some address ∨ tx.to_ = some address then
    match env.fromWei tx.value "ether" with
    | .error msg => .error msg
    | .ok value =>
      .ok (some
        { hash := tx.hash
          from_ := tx.from_
          to_ := tx.to_
          value := value
          blockNumber := match tx.blockNumber with
            | some n => .number n
            | none => .null
          timestamp := env.now
          type := if tx.from_ = some address then .sent else .received })
  else .ok none

/-- The helper `weiToEth` of web3Utils.js (lines 112-115): `getWeb3Instance`
throws when no provider is injected. -/
def weiToEth (env : Env) (weiAmount : String) : Except String String :=
  if env.ethereum then env.fromWei weiAmount "ether"
  else .error "MetaMask is not installed"

/-- JavaScript truthiness of a string-or-null field followed by the
case-insensitive comparison with `address`
(`x && x.toLowerCase() === address.toLowerCase()`). -/
def matchesAddress (env : Env) (address : String) (x : Option String) : Bool :=
  match x with
  | none => false
  | some a => a ≠ "" && env.toLowerCase a == env.toLowerCase address

/-- The callback of `block.transactions.forEach` in `getTransactionHistory` of
web3Utils.js (lines 207-222): the record pushed for `tx`, if any, or the error
thrown by `weiToEth` or by `tx.from.toLowerCase()` on a `null` sender. -/
def utilsScanTx (env : Env) (address : String) (tx : ChainTx) :
    Except String (Option HistoryRecord) :=
  if matchesAddress env address tx.from_ ∨ matchesAddress env address tx.to_ then
    match weiToEth env tx.value with
    | .error msg => .error msg
    | .ok value =>
      match tx.from_ with
      | none => .error env.nullMessage
      | some sender =>
        .ok (some
          { hash := tx.hash
            from_ := tx.from_
            to_ := tx.to_
            value := value
            blockNumber := match tx.blockNumber with
              | some n => .number n
              | none => .null
            timestamp := env.now
            type := if env.toLowerCase sender = env.toLowerCase address then .sent
              else .received
            gasPrice := tx.gasPrice
            gas := tx.gas })
  else .ok none

/-- A `forEach` over the transactions of one block with a callback `f` that
pushes onto `acc` and may throw. -/
def scanBlockTxs {ρ : Type} (f : ChainTx → Except String (Option ρ)) :
    List ChainTx → List ρ → Except String (List ρ)
  | [], acc => .ok acc
  | tx :: rest, acc =>
    match f tx with
    | .error msg => .error msg
    | .ok none => scanBlockTxs f rest acc
    | .ok (some r) => scanBlockTxs f rest (acc ++ [r])

/-- The `for` loop shared by the two scanners, `remaining` being
`blocksToCheck - i`: while `i < blocksToCheck` and fewer than `maxTransactions`
records are collected, fetch block `latestBlock - i` and run the callback on
its transactions. `calls` are the provider calls issued so far. -/
def scanLoop {ρ : Type} (env : Env) (f : ChainTx → Except String (Option ρ))
    (latestBlock : Nat) (maxTransactions : Int) :
    Nat → Nat → List ρ → List ProviderCall → Run (List ρ)
  | 0, _, acc, calls => { calls := calls, result := .ok acc }
  | remaining + 1, i, acc, calls =>
    if (acc.length : Int) < maxTransactions then
      let blockNumber := latestBlock - i
      let calls1 := calls ++ [ProviderCall.getBlock blockNumber]
      match env.getBlock blockNumber with
      | .error msg => { calls := calls1, result := .error msg }
      | .ok none => scanLoop env f latestBlock maxTransactions remaining (i + 1) acc calls1
      | .ok (some block) =>
        match block.transactions with
        | none => scanLoop env f latestBlock maxTransactions remaining (i + 1) acc calls1
        | some txs =>
          match scanBlockTxs f txs acc with
          | .error msg => { calls := calls1, result := .error msg }
          | .ok acc1 =>
            scanLoop env f latestBlock maxTransactions remaining (i + 1) acc1 calls1
    else { calls := calls, result := .ok acc }

/-- The body of the `try` block of `getTransactionHistory` in web3Utils.js
(lines 197-226). -/
def utilsGetTransactionHistory_try (env : Env) (address : String)
    (maxBlocks maxTransactions : Int) : Run (List HistoryRecord) :=
  match env.getBlockNumber with
  | .error msg => { calls := [.getBlockNumber], result := .error msg }
  | .ok latestBlock =>
    let blocksToCheck : Int := min maxBlocks (latestBlock : Int)
    let r := scanLoop env (utilsScanTx env address) latestBlock maxTransactions
      blocksToCheck.toNat 0 [] [.getBlockNumber]
    { calls := r.calls
      result := match r.result with
        | .error msg => .error msg
        | .ok transactions => .ok (JS.slice transactions 0 maxTransactions) }

/-- The function `getTransactionHistory(web3, address, maxBlocks,
maxTransactions)` of web3Utils.js (lines 195-231): the returned array and the
provider calls issued. -/
def utilsGetTransactionHistory (env : Env) (address : String)
    (maxBlocks maxTransactions : Int) : List HistoryRecord × List ProviderCall :=
  let r := utilsGetTransactionHistory_try env address maxBlocks maxTransactions
  match r.result with
  | .error _ => ([], r.calls)
  | .ok transactions => (transactions, r.calls)

/-- The body of the `try` block of the page's `getTransactionHistory`
(wallet/index.js, lines 120-150), up to the argument of `setTransactions`. -/
def getTransactionHistory_try (env : Env) (web3Instance : Option Web3Instance)
    (address : String) : Run (List TransactionRecord) :=
  match web3Instance with
  | none => { calls := [], result := .error env.nullMessage }
  | some _ =>
    match env.getBlockNumber with
    | .error msg => { calls := [.getBlockNumber], result := .error msg }
    | .ok latestBlock =>
      let blocksToCheck := min 1000 latestBlock
      let r := scanLoop env (pageScanTx env address) latestBlock 10
        blocksToCheck 0 [] [.getBlockNumber]
      { calls := r.calls
        result := match r.result with
          | .error msg => .error msg
          | .ok transactions => .ok (JS.slice transactions 0 10) }

/-- The page's `getTransactionHistory(web3Instance, address)` (wallet/index.js,
lines 114-154): on an error nothing is written. -/
def getTransactionHistory (env : Env) (s : WalletState)
    (web3Instance : Option Web3Instance) (address : String) : Outcome :=
  let r := getTransactionHistory_try env web3Instance address
  match r.result with
  | .error _ => { state := s, calls := r.calls }
  | .ok transactions => { state := { s with transactions := transactions }, calls := r.calls }

/-- The page's `getBalance(web3Instance, address)` (wallet/index.js, lines
103-111). -/
def getBalance (env : Env) (s : WalletState) (web3Instance : Option Web3Instance)
    (address : String) : Outcome :=
  match web3Instance with
  | none => { state := s, calls := [] }
  | some _ =>
    match env.getBalance address with
    | .error _ => { state := s, calls := [.getBalance address] }
    | .ok balanceWei =>
      match env.fromWei balanceWei "ether" with
      | .error _ => { state := s, calls := [.getBalance address] }
      | .ok balanceEth =>
        { state := { s with balance := (JS.parseFloat balanceEth).toFixed 4 }
          calls := [.getBalance address] }

/-! ## The handlers of the Wallet view-model -/

/-- The table `networkNames` of the page (wallet/index.js, lines 44-52). -/
def networkNames (netId : Nat) : Option String :=
  if netId = 1 then some "Ethereum Mainnet"
  else if netId = 3 then some "Ropsten Testnet"
  else if netId = 4 then some "Rinkeby Testnet"
  else if netId = 5 then some "Goerli Testnet"
  else if netId = 42 then some "Kovan Testnet"
  else if netId = 11155111 then some "Sepolia Testnet"
  else if netId = 1337 then some "Local Development"
  else none

/-- The handler `connectWallet` (wallet/index.js, lines 55-100). -/
def connectWallet (env : Env) (s : WalletState) : Outcome :=
  let s0 := { s with connectLoading := true, error := "" }
  if env.ethereum then
    match env.requestAccounts with
    | .error msg =>
      { state := { s0 with error := msg, connectLoading := false }
        calls := [.requestAccounts] }
    | .ok [] =>
      { state := { s0 with error := "No accounts found", connectLoading := false }
        calls := [.requestAccounts] }
    | .ok (account0 :: _) =>
      let s1 := { s0 with web3 := some env.newWeb3, account := account0, isConnected := true }
      match env.netGetId with
      | .error msg =>
        { state := { s1 with error := msg, connectLoading := false }
          calls := [.requestAccounts, .netGetId] }
      | .ok netId =>
        let s2 := { s1 with
          networkId := some netId
          networkName := match networkNames netId with
            | some name => name
            | none => "Network ID: " ++ String.mk (JS.natDigits netId) }
        let b := getBalance env s2 (some env.newWeb3) account0
        let h := getTransactionHistory env b.state (some env.newWeb3) account0
        { state := { h.state with
            success := "Wallet connected successfully!", connectLoading := false }
          calls := [.requestAccounts, .netGetId] ++ b.calls ++ h.calls }
  else
    { state := { s0 with
        error := "MetaMask is not installed. Please install MetaMask to use this wallet."
        connectLoading := false }
      calls := [] }

/-- The updater passed to `setManualTransactions` in `sendTransaction`
(wallet/index.js, line 216). -/
def sendTransaction_setManualTransactions (newTx : TransactionRecord)
    (prev : List TransactionRecord) : List TransactionRecord :=
  newTx :: JS.slice prev 0 9

/-- The updater passed to `setTransactions` in `sendTransaction`
(wallet/index.js, lines 219-227). -/
def sendTransaction_setTransactions (newTx : TransactionRecord)
    (prev : List TransactionRecord) : List TransactionRecord :=
  let combined := newTx :: prev
  let unique := JS.filter
    (fun tx index self => decide ((index : Int) = JS.findIndex (fun t => t.hash == tx.hash) self))
    combined
  JS.slice unique 0 10

/-- The exit of `sendTransaction` and `sendDemoTransaction` through `catch` and
`finally` after `setLoading(true); setError(""); setSuccess("")`: the error
message is shown, nothing else is written. -/
def sendFailed (s : WalletState) (msg : String) (calls : List ProviderCall) : Outcome :=
  { state := { s with loading := false, error := msg, success := "" }, calls := calls }

/-- The `try` block of `sendTransaction` up to the resolution of
`web3.eth.sendTransaction` (wallet/index.js, lines 164-200): the validation and
the two provider calls; the value is `tx.transactionHash`. -/
def sendTransaction_try (env : Env) (s : WalletState) : Run String :=
  let recipient := s.sendForm.recipient
  let amount := s.sendForm.amount
  let gasPrice := s.sendForm.gasPrice
  if recipient = "" ∨ JS.trim recipient = "" then
    { calls := [], result := .error "Please enter a recipient address" }
  else if amount = "" ∨ amount = "" ∨ (JS.parseFloat amount).le zero then
    { calls := [], result := .error "Please enter a valid amount greater than 0" }
  else if (JS.parseFloat amount).gt (JS.parseFloat s.balance) then
    { calls := [], result := .error "Insufficient balance for this transaction" }
  else
    match s.web3 with
    | none => { calls := [], result := .error env.nullMessage }
    | some _ =>
      if ¬ env.isAddress recipient then
        { calls := [], result := .error "Invalid recipient address format" }
      else
        match env.toWei amount "ether" with
        | .error msg => { calls := [], result := .error msg }
        | .ok amountWei =>
          match env.toWei gasPrice "gwei" with
          | .error msg => { calls := [], result := .error msg }
          | .ok gasPriceWei =>
            let estimate : TxRequest :=
              { from_ := s.account, to_ := recipient, value := amountWei
                gas := none, gasPrice := none }
            match env.estimateGas estimate with
            | .error msg => { calls := [.estimateGas estimate], result := .error msg }
            | .ok gasLimit =>
              let request : TxRequest :=
                { from_ := s.account, to_ := recipient, value := amountWei
                  gas := some gasLimit, gasPrice := some gasPriceWei }
              { calls := [.estimateGas estimate, .sendTransaction request]
                result := env.sendTransaction request }

/-- The record `newTx` built by `sendTransaction` (wallet/index.js, lines
205-213). -/
def sendTransaction_newTx (env : Env) (s : WalletState) (transactionHash : String) :
    TransactionRecord :=
  { hash := transactionHash
    from_ := some s.account
    to_ := some s.sendForm.recipient
    value := s.sendForm.amount
    blockNumber := .Pending
    timestamp := env.now
    type := .sent }

/-- The handler `sendTransaction` (wallet/index.js, lines 157-250); the balance
refresh it schedules with `setTimeout` is the later event `getBalance`. -/
def sendTransaction (env : Env) (s : WalletState) : Outcome :=
  let r := sendTransaction_try env s
  match r.result with
  | .error msg => sendFailed s msg r.calls
  | .ok transactionHash =>
    let newTx := sendTransaction_newTx env s transactionHash
    { state := { s with
        loading := false
        error := ""
        success := "Transaction sent successfully! Hash: " ++ transactionHash
        manualTransactions :=
          sendTransaction_setManualTransactions newTx s.manualTransactions
        transactions := sendTransaction_setTransactions newTx s.transactions
        sendForm := { recipient := "", amount := "", gasPrice := "20" } }
      calls := r.calls }

/-- The names of the inputs of the send form. -/
inductive FormField
  | recipient
  | amount
  | gasPrice
deriving DecidableEq, Repr

/-- The handler `handleInputChange` (wallet/index.js, lines 253-259). -/
def handleInputChange (s : WalletState) (name : FormField) (value : String) : WalletState :=
  match name with
  | .recipient => { s with sendForm := { s.sendForm with recipient := value } }
  | .amount => { s with sendForm := { s.sendForm with amount := value } }
  | .gasPrice => { s with sendForm := { s.sendForm with gasPrice := value } }

/-- The handler `enterDemoMode` (wallet/index.js, lines 262-289). -/
def enterDemoMode (env : Env) (s : WalletState) : WalletState :=
  { s with
    demoMode := true
    account := "0x742d35Cc6635Bc0532E3D7b2b9C24B2c5f07c9E7"
    balance := "10.5000"
    isConnected := true
    networkName := "Demo Network"
    transactions :=
      [ { hash := "0xa1b2c3d4e5f6789012345678901234567890abcdef1234567890abcdef123456"
          from_ := some "0x742d35Cc6635Bc0532E3D7b2b9C24B2c5f07c9E7"
          to_ := some "0x123456789abcdef123456789abcdef123456789ab"
          value := "0.1"
          blockNumber := .number 18567890
          timestamp := env.now
          type := .sent },
        { hash := "0xdef123456789abcdef123456789abcdef123456789abcdef123456789abcdef12"
          from_ := some "0x987654321fedcba987654321fedcba9876543210"
          to_ := some "0x742d35Cc6635Bc0532E3D7b2b9C24B2c5f07c9E7"
          value := "0.5"
          blockNumber := .number 18567845
          timestamp := env.fiveMinutesAgo
          type := .received } ]
    success := "Demo mode activated! This is a simulated wallet interface." }

/-- The handler `disconnectWallet` (wallet/index.js, lines 292-306). -/
def disconnectWallet (s : WalletState) : WalletState :=
  { s with
    web3 := none
    account := ""
    balance := "0"
    isConnected := false
    demoMode := false
    transactions := []
    manualTransactions := []
    networkId := none
    networkName := ""
    connectLoading := false
    loading := false
    error := ""
    success := "Wallet disconnected" }

/-- The updater passed to `setTransactions` in `sendDemoTransaction`
(wallet/index.js, line 353). -/
def sendDemoTransaction_setTransactions (newTx : TransactionRecord)
    (prev : List TransactionRecord) : List TransactionRecord :=
  newTx :: JS.slice prev 0 9

/-- The validation of `sendDemoTransaction` (wallet/index.js, lines 316-334):
the message of the error thrown, or `.ok ()` when the four checks pass. -/
def sendDemoTransaction_try (s : WalletState) : Except String Unit :=
  let recipient := s.sendForm.recipient
  let amount := s.sendForm.amount
  if recipient = "" ∨ JS.trim recipient = "" then
    .error "Please enter a recipient address"
  else if amount = "" ∨ amount = "" ∨ (JS.parseFloat amount).le zero then
    .error "Please enter a valid amount greater than 0"
  else if (JS.parseFloat amount).gt (JS.parseFloat s.balance) then
    .error "Insufficient balance for this transaction"
  else if JS.length recipient < 10 then
    .error "Please enter a valid recipient address"
  else .ok ()

/-- The record `newTx` built by `sendDemoTransaction` (wallet/index.js, lines
339-351). -/
def sendDemoTransaction_newTx (env : Env) (s : WalletState) : TransactionRecord :=
  { hash := "0x" ++ env.randomHex
    from_ := some s.account
    to_ := some s.sendForm.recipient
    value := s.sendForm.amount
    blockNumber := .number 18567891
    timestamp := env.now
    type := .sent }

/-- The handler `sendDemoTransaction` (wallet/index.js, lines 309-374). -/
def sendDemoTransaction (env : Env) (s : WalletState) : Outcome :=
  match sendDemoTransaction_try s with
  | .error msg => sendFailed s msg []
  | .ok _ =>
    let newTx := sendDemoTransaction_newTx env s
    let newBalance :=
      (((JS.parseFloat s.balance).sub (JS.parseFloat s.sendForm.amount)).sub demoFee).toFixed 4
    { state := { s with
        loading := false
        error := ""
        success := "Demo transaction sent! Hash: " ++ newTx.hash
        transactions := sendDemoTransaction_setTransactions newTx s.transactions
        balance := newBalance
        sendForm := { recipient := "", amount := "", gasPrice := "20" } }
      calls := [] }

/-- The listener of `accountsChanged` (wallet/index.js, lines 379-389). -/
def accountsChanged (env : Env) (s : WalletState) (accounts : List String) : Outcome :=
  match accounts with
  | [] => { state := disconnectWallet s, calls := [] }
  | account0 :: _ =>
    let s1 := { s with account := account0 }
    match s.web3 with
    | none => { state := s1, calls := [] }
    | some w =>
      let b := getBalance env s1 (some w) account0
      let h := getTransactionHistory env b.state (some w) account0
      { state := h.state, calls := b.calls ++ h.calls }

/-- The events of the view-model: the handlers wired to the buttons, the form
and the provider, the timer tick and the two dismissible alerts. -/
inductive Action
  | connectWallet
  | getBalance
  | getTransactionHistory
  | sendTransaction
  | sendDemoTransaction
  | handleInputChange (name : FormField) (value : String)
  | enterDemoMode
  | disconnectWallet
  | accountsChanged (accounts : List String)
  | dismissError
  | dismissSuccess

/-- The state after event `a` in state `s`, the outside world answering as
`env`. -/
def step (env : Env) (a : Action) (s : WalletState) : WalletState :=
  match a with
  | .connectWallet => (connectWallet env s).state
  | .getBalance => (getBalance env s s.web3 s.account).state
  | .getTransactionHistory => (getTransactionHistory env s s.web3 s.account).state
  | .sendTransaction => (sendTransaction env s).state
  | .sendDemoTransaction => (sendDemoTransaction env s).state
  | .handleInputChange name value => handleInputChange s name value
  | .enterDemoMode => enterDemoMode env s
  | .disconnectWallet => disconnectWallet s
  | .accountsChanged accounts => (accountsChanged env s accounts).state
  | .dismissError => { s with error := "" }
  | .dismissSuccess => { s with success := "" }

/-- A provider and library that accept every request, for the examples: every
string is an address, unit conversion is the identity, lower-casing acts on the
letters `A` to `Z`, and the chain is at block `0`. -/
def sampleEnv : Env where
  ethereum := true
  newWeb3 := { id := 1 }
  requestAccounts := .ok ["0x742d35cc6635bc0532e3d7b2b9c24b2c5f07c9e7"]
  netGetId := .ok 1
  getBalance := fun _ => .ok "0"
  getBlockNumber := .ok 0
  getBlock := fun _ => .ok none
  estimateGas := fun _ => .ok 21000
  sendTransaction := fun _ => .ok "0xabc"
  isAddress := fun _ => true
  toWei := fun amount _ => .ok amount
  fromWei := fun amount _ => .ok amount
  toLowerCase := fun a => String.mk (a.data.map Char.toLower)
  now := "1/1/2025, 12:00:00 PM"
  fiveMinutesAgo := "1/1/2025, 11:55:00 AM"
  randomHex := "8f3a2c"
  nullMessage := "Cannot read properties of null"

/-- A connected wallet with balance `3.0000` about to send `1.0` ETH. -/
def sampleState : WalletState :=
  { WalletState.initial with
    web3 := some { id := 1 }
    account := "0x742d35cc6635bc0532e3d7b2b9c24b2c5f07c9e7"
    balance := "3.0000"
    isConnected := true
    sendForm :=
      { recipient := "0x123456789abcdef123456789abcdef123456789a", amount := "1.0"
        gasPrice := "20" } }

/-- A previous displayed list that already holds the hash `0xabc` and repeats
the hash `0x1`. -/
def sampleStateWithDuplicates : WalletState :=
  { sampleState with
    transactions :=
      [ { hash := "0x1", from_ := none, to_ := none, value := "1", blockNumber := .number 7
          timestamp := "", type := .received },
        { hash := "0xabc", from_ := none, to_ := none, value := "1", blockNumber := .number 6
          timestamp := "", type := .sent },
        { hash := "0x1", from_ := none, to_ := none, value := "2", blockNumber := .number 5
          timestamp := "", type := .received } ] }

/-- The sample wallet with the form of the scenario: amount `5`, balance
`3.0000`. -/
def aboveBalanceState : WalletState :=
  { sampleState with
    sendForm :=
      { recipient := "0x123456789abcdef123456789abcdef123456789a", amount := "5"
        gasPrice := "20" } }

/-- The form of the scenario (amount `5`, balance `3.0000`) with a recipient
made of one space. -/
def blankRecipientState : WalletState :=
  { sampleState with sendForm := { recipient := " ", amount := "5", gasPrice := "20" } }

/-- The demo wallet after sending its whole balance: demo mode is entered, the
form is filled with a recipient and the amount `10.5`, and submitted. -/
def overdrawnDemoState : WalletState :=
  step sampleEnv .sendDemoTransaction
    (step sampleEnv (.handleInputChange .amount "10.5")
      (step sampleEnv
        (.handleInputChange .recipient "0x123456789abcdef123456789abcdef123456789a")
        (step sampleEnv .enterDemoMode WalletState.initial)))

/-- The overdrawn demo wallet with the form filled again: a recipient and the
amount `0`. -/
def zeroAmountOverdrawnState : WalletState :=
  step sampleEnv (.handleInputChange .amount "0")
    (step sampleEnv
      (.handleInputChange .recipient "0x123456789abcdef123456789abcdef123456789a")
      overdrawnDemoState)

/-- The sample wallet with amount `0` and an empty recipient. -/
def zeroAmountNoRecipientState : WalletState :=
  { sampleState with sendForm := { recipient := "", amount := "0", gasPrice := "20" } }

/-- The sample wallet with amount `0` and a recipient made of one space. -/
def zeroAmountBlankRecipientState : WalletState :=
  { sampleState with sendForm := { recipient := " ", amount := "0", gasPrice := "20" } }

/-- The sample wallet with amount `0` and a recipient. -/
def zeroAmountState : WalletState :=
  { sampleState with
    sendForm :=
      { recipient := "0x123456789abcdef123456789abcdef123456789a", amount := "0"
        gasPrice := "20" } }

/-- A library as `sampleEnv` whose `isAddress` rejects every string. -/
def strictEnv : Env := { sampleEnv with isAddress := fun _ => false }

/-- One demo submission through the form: the recipient and the amount `0.1`
are typed, then the form is submitted. -/
def demoSend (s : WalletState) : WalletState :=
  step sampleEnv .sendDemoTransaction
    (step sampleEnv (.handleInputChange .amount "0.1")
      (step sampleEnv
        (.handleInputChange .recipient "0x123456789abcdef123456789abcdef123456789a") s))

/-- The demo wallet with the form filled for its first submission. -/
def firstDemoSendState : WalletState :=
  step sampleEnv (.handleInputChange .amount "0.1")
    (step sampleEnv
      (.handleInputChange .recipient "0x123456789abcdef123456789abcdef123456789a")
      (step sampleEnv .enterDemoMode WalletState.initial))

/-- The demo wallet after eight submissions (its history holds 10 records: the
eight sent ones and the two starter records), with the form filled for a
ninth. -/
def ninthDemoSendState : WalletState :=
  step sampleEnv (.handleInputChange .amount "0.1")
    (step sampleEnv
      (.handleInputChange .recipient "0x123456789abcdef123456789abcdef123456789a")
      (demoSend (demoSend (demoSend (demoSend (demoSend (demoSend (demoSend (demoSend
        (step sampleEnv .enterDemoMode WalletState.initial))))))))))

/-- The second starter record of demo mode, the oldest of the history. -/
def demoStarterReceived : TransactionRecord :=
  { hash := "0xdef123456789abcdef123456789abcdef123456789abcdef123456789abcdef12"
    from_ := some "0x987654321fedcba987654321fedcba9876543210"
    to_ := some "0x742d35Cc6635Bc0532E3D7b2b9C24B2c5f07c9E7"
    value := "0.5"
    blockNumber := .number 18567845
    timestamp := sampleEnv.fiveMinutesAgo
    type := .received }

/-- The account as the wallet extension reports it, in lower case. -/
def lowerCaseAddress : String := "0x742d35cc6635bc0532e3d7b2b9c24b2c5f07c9e7"

/-- A transaction sent by that account, the sender in mixed-case checksum
form. -/
def mixedCaseTx : ChainTx :=
  { hash := "0xfeed"
    from_ := some "0x742d35Cc6635Bc0532E3D7b2b9C24B2c5f07c9E7"
    to_ := some "0x123456789abcdef123456789abcdef123456789a"
    value := "1000"
    blockNumber := some 1
    gasPrice := "20"
    gas := 21000 }

/-- A chain at height `1` whose block `1` holds `mixedCaseTx`. -/
def mixedCaseEnv : Env :=
  { sampleEnv with
    getBlockNumber := .ok 1
    getBlock := fun n =>
      if n = 1 then .ok (some { transactions := some [mixedCaseTx] }) else .ok none }

/-- The transactions the provider returns for block `n`: none when the fetch
fails, the block is `null` or it has no `transactions`. -/
def blockTransactions (env : Env) (n : Nat) : List ChainTx :=
  match env.getBlock n with
  | .ok (some block) =>
    match block.transactions with
    | some txs => txs
    | none => []
  | _ => []

/-- The records of the transactions of block `n` that the callback `f` selects,
in in-block order. -/
def blockMatches {ρ : Type} (env : Env) (f : ChainTx → Except String (Option ρ))
    (n : Nat) : List ρ :=
  (blockTransactions env n).filterMap
    (fun tx =>
      match f tx with
      | .ok r => r
      | .error _ => none)

/-- The scan as the specification words it: the records of all matching
transactions of the blocks `latestBlock, latestBlock - 1, ...,
latestBlock - window + 1`, blocks in that order, transactions in in-block
order. -/
def windowMatches {ρ : Type} (env : Env) (f : ChainTx → Except String (Option ρ))
    (latestBlock window : Nat) : List ρ :=
  (List.range window).flatMap (fun i => blockMatches env f (latestBlock - i))

/-- The transactions of block `3` of the sample chain: one sent by the account
`lowerCaseAddress` (sender in checksum case) and one received by it. -/
def sampleBlock3 : List ChainTx :=
  [ { hash := "0x3a", from_ := some "0x742d35Cc6635Bc0532E3D7b2b9C24B2c5f07c9E7"
      to_ := some "0x123456789abcdef123456789abcdef123456789a", value := "1000"
      blockNumber := some 3, gasPrice := "20", gas := 21000 },
    { hash := "0x3b", from_ := some "0x987654321fedcba987654321fedcba9876543210"
      to_ := some "0x742d35cc6635bc0532e3d7b2b9c24b2c5f07c9e7", value := "500"
      blockNumber := some 3, gasPrice := "20", gas := 21000 } ]

/-- The transactions of block `2` of the sample chain: a foreign transaction
and a contract creation by the account. -/
def sampleBlock2 : List ChainTx :=
  [ { hash := "0x2a", from_ := some "0x987654321fedcba987654321fedcba9876543210"
      to_ := some "0x123456789abcdef123456789abcdef123456789a", value := "7"
      blockNumber := some 2, gasPrice := "20", gas := 21000 },
    { hash := "0x2b", from_ := some "0x742d35cc6635bc0532e3d7b2b9c24b2c5f07c9e7"
      to_ := none, value := "0"
      blockNumber := some 2, gasPrice := "20", gas := 53000 } ]

/-- A chain at height `3` for the examples of the scanner: blocks `3` and `2`
as above, the lower blocks `null`. -/
def windowEnv : Env :=
  { sampleEnv with
    getBlockNumber := .ok 3
    getBlock := fun n =>
      if n = 3 then .ok (some { transactions := some sampleBlock3 })
      else if n = 2 then .ok (some { transactions := some sampleBlock2 })
      else .ok none }

/-- The chain of `windowEnv` with a provider that fails on every block below
block `3`. -/
def brokenEnv : Env :=
  { windowEnv with
    getBlock := fun n =>
      if n = 3 then .ok (some { transactions := some sampleBlock3 })
      else .error "header not found" }

/-- A provider whose `getBlockNumber` fails. -/
def offlineEnv : Env := { sampleEnv with getBlockNumber := .error "network error" }

/-- The sample wallet after a successful send on the sample chain: the record
of the pending transaction `0xabc` is in both lists. -/
def afterSendState : WalletState := (sendTransaction windowEnv sampleState).state

/-- The wallet of `afterSendState` after the history is refreshed on the sample
chain. -/
def afterRefreshState : WalletState :=
  (getTransactionHistory windowEnv afterSendState afterSendState.web3
    afterSendState.account).state

/-- An entry of the table `NETWORKS` of web3Utils.js. -/
structure NetworkConfig where
  name : String
  chainId : String
  rpcUrl : String
  blockExplorer : String
deriving DecidableEq, Repr

/-- The table `NETWORKS` of web3Utils.js (lines 4-29), by chain identifier. -/
def NETWORKS (networkId : Nat) : Option NetworkConfig :=
  if networkId = 1 then
    some
      { name := "Ethereum Mainnet", chainId := "0x1"
        rpcUrl := "https://mainnet.infura.io/v3/", blockExplorer := "https://etherscan.io" }
  else if networkId = 5 then
    some
      { name := "Goerli Testnet", chainId := "0x5"
        rpcUrl := "https://goerli.infura.io/v3/"
        blockExplorer := "https://goerli.etherscan.io" }
  else if networkId = 11155111 then
    some
      { name := "Sepolia Testnet", chainId := "0xaa36a7"
        rpcUrl := "https://sepolia.infura.io/v3/"
        blockExplorer := "https://sepolia.etherscan.io" }
  else if networkId = 1337 then
    some
      { name := "Local Development", chainId := "0x539"
        rpcUrl := "http://127.0.0.1:8545", blockExplorer := "http://localhost" }
  else none

/-- The object returned by `getNetworkInfo`. -/
structure NetworkInfo where
  networkId : Nat
  networkName : String
  network : Option NetworkConfig
deriving DecidableEq, Repr

/-- The function `getNetworkInfo` of web3Utils.js (lines 84-97); the chain
identifier is rendered in decimal by the template literal. -/
def getNetworkInfo (env : Env) : Except String NetworkInfo :=
  match env.netGetId with
  | .error msg => .error ("Failed to get network info: " ++ msg)
  | .ok networkId =>
    .ok
      { networkId := networkId
        networkName := match NETWORKS networkId with
          | some network => network.name
          | none => "Network ID: " ++ String.mk (JS.natDigits networkId)
        network := NETWORKS networkId }

/-- A provider on the chain `137`, which neither table knows. -/
def polygonEnv : Env := { sampleEnv with netGetId := .ok 137 }

/-- The UTF-16 code units of a string, the elements `length`, `substring` and
the comparison operators of JavaScript strings work on. -/
def JS.utf16 (s : String) : List Nat :=
  s.data.flatMap
    (fun c =>
      if c.toNat < 0x10000 then [c.toNat]
      else [0xD800 + (c.toNat - 0x10000) / 0x400, 0xDC00 + (c.toNat - 0x10000) % 0x400])

/-- The method `String.prototype.substring(start, end)` on code units for
integer arguments; `stop` is `none` when `end` is omitted. -/
def JS.substring {α : Type} (s : List α) (start : Int) (stop : Option Int) : List α :=
  let len : Int := s.length
  let intEnd : Int :=
    match stop with
    | some e => e
    | none => len
  let finalStart := min (max start 0) len
  let finalEnd := min (max intEnd 0) len
  ((s.take (max finalStart finalEnd).toNat).drop (min finalStart finalEnd).toNat)

/-- The function `formatAddress(address, startChars, endChars)` of
web3Utils.js (lines 234-238) on code units, for integer `startChars` and
`endChars` (their defaults are `6` and `4`); `address` is `none` when it is
`null` or `undefined`. -/
def formatAddress (address : Option (List Nat)) (startChars endChars : Int) : List Nat :=
  match address with
  | none => []
  | some a =>
    if a = [] then []
    else if (a.length : Int) ≤ startChars + endChars then a
    else
      JS.substring a 0 (some startChars) ++ JS.utf16 "..." ++
        JS.substring a ((a.length : Int) - endChars) none

/-- The demo wallet with the form filled to send its whole balance `10.5`. -/
def wholeBalanceState : WalletState :=
  step sampleEnv (.handleInputChange .amount "10.5")
    (step sampleEnv
      (.handleInputChange .recipient "0x123456789abcdef123456789abcdef123456789a")
      (step sampleEnv .enterDemoMode WalletState.initial))

/-- The demo wallet after sending `10.498` of its `10.5000` (the balance left
is `0.0010`), with the form filled to send `5e-20`. -/
def feeRoundingState : WalletState :=
  step sampleEnv (.handleInputChange .amount "5e-20")
    (step sampleEnv
      (.handleInputChange .recipient "0x123456789abcdef123456789abcdef123456789a")
      (step sampleEnv .sendDemoTransaction
        (step sampleEnv (.handleInputChange .amount "10.498")
          (step sampleEnv
            (.handleInputChange .recipient "0x123456789abcdef123456789abcdef123456789a")
            (step sampleEnv .enterDemoMode WalletState.initial)))))

/-- A demo wallet with the balance `1e20` and the form filled to send it all. -/
def hugeBalanceState : WalletState :=
  { sampleState with
    demoMode := true
    balance := "100000000000000000000.0000"
    sendForm :=
      { recipient := "0x123456789abcdef123456789abcdef123456789a", amount := "1e20"
        gasPrice := "20" } }

/-- The sample chain read through a `web3` instance while no provider is
injected in the page (`window.ethereum` is undefined). -/
def noInjectedEnv : Env := { windowEnv with ethereum := false }

/-- A provider that grants account access and then fails the network-id
query. -/
def netFailEnv : Env := { sampleEnv with netGetId := .error "network id unavailable" }

/-- A page without an injected provider. -/
def noProviderEnv : Env := { sampleEnv with ethereum := false }

/-- A provider that grants access to no account. -/
def noAccountsEnv : Env := { sampleEnv with requestAccounts := .ok [] }

/-- The chain of `mixedCaseEnv` read through a `web3` instance while no
provider is injected in the page (`window.ethereum` is undefined). -/
def mixedCaseNoInjectedEnv : Env := { mixedCaseEnv with ethereum := false }

/-- The states the view-model can be in: the initial one and those reached by
any sequence of events, whatever the outside world answers. -/
inductive Reachable : WalletState → Prop
  | initial : Reachable WalletState.initial
  | step (env : Env) (a : Action) (s : WalletState) :
      Reachable s → Reachable (step env a s)

/-- The merge as the specification words it: walking the list from the front,
a record is kept when no earlier record carries its hash (`seen` holds the
hashes met so far), so each hash keeps its first occurrence and the kept
records stay in their relative order. -/
def keepFirstByHashAux : List String → List TransactionRecord → List TransactionRecord
  | _, [] => []
  | seen, tx :: rest =>
    if tx.hash ∈ seen then keepFirstByHashAux seen rest
    else tx :: keepFirstByHashAux (tx.hash :: seen) rest

/-- Deduplication by hash keeping the first occurrence, after the
specification. -/
def keepFirstByHash (l : List TransactionRecord) : List TransactionRecord :=
  keepFirstByHashAux [] l


set_option maxRecDepth 100000

/-! ## Lemmas on the array primitives -/

theorem JS.slice_zero_nat {α : Type} (l : List α) (n : Nat) :
    JS.slice l 0 (n : Int) = l.take n := by
  unfold JS.slice JS.clampIndex
  have h1 : ¬ ((n : Int) < 0) := by omega
  have h2 : ¬ ((0 : Int) < 0) := by omega
  rw [if_neg h1, if_neg h2]
  simp only [Int.toNat_ofNat, Int.toNat_zero, Nat.zero_min, List.drop_zero]
  rw [List.take_eq_take]
  simp

theorem JS.findIndexFrom_ge {α : Type} (p : α → Bool) (l : List α) (k : Nat) :
    JS.findIndexFrom p l k = -1 ∨ (k : Int) ≤ JS.findIndexFrom p l k := by
  induction l generalizing k with
  | nil => left; rfl
  | cons x xs ih =>
    unfold JS.findIndexFrom
    split
    · right; exact le_refl _
    · rcases ih (k + 1) with h | h
      · left; exact h
      · right; push_cast at h; omega

theorem JS.findIndexFrom_append_eq {α : Type} (p : α → Bool) (pre : List α) (x : α)
    (suf : List α) (k : Nat) :
    JS.findIndexFrom p (pre ++ x :: suf) k = ((k + pre.length : Nat) : Int) ↔
      (p x = true ∧ ∀ y ∈ pre, p y = false) := by
  induction pre generalizing k with
  | nil =>
    simp only [List.nil_append, List.length_nil, Nat.add_zero, List.not_mem_nil,
      false_implies, implies_true, and_true]
    unfold JS.findIndexFrom
    by_cases hx : p x = true
    · rw [if_pos hx]; simp [hx]
    · rw [if_neg hx]
      simp only [hx, iff_false]
      simp only [Bool.false_eq_true, iff_false]
      intro h2
      rcases JS.findIndexFrom_ge p suf (k + 1) with h | h
      · rw [h] at h2; omega
      · rw [h2] at h; push_cast at h; omega
  | cons y pre ih =>
    simp only [List.cons_append, List.length_cons, List.mem_cons, forall_eq_or_imp]
    unfold JS.findIndexFrom
    by_cases hy : p y = true
    · rw [if_pos hy]
      constructor
      · intro h; push_cast at h; omega
      · intro h; rw [hy] at h; simp at h
    · rw [if_neg hy]
      have := ih (k + 1)
      have e : k + 1 + pre.length = k + (pre.length + 1) := by omega
      rw [e] at this
      rw [this]
      simp at hy
      simp [hy]

/-! ## The merge of `sendTransaction` -/

theorem filterFrom_eq_keepFirst (pre suf : List TransactionRecord) (seen : List String)
    (hseen : ∀ h, h ∈ seen ↔ ∃ y ∈ pre, y.hash = h) :
    JS.filterFrom
      (fun tx index self => decide ((index : Int) = JS.findIndex (fun t => t.hash == tx.hash) self))
      (pre ++ suf) suf pre.length = keepFirstByHashAux seen suf := by
  induction suf generalizing pre seen with
  | nil => rfl
  | cons x xs ih =>
    have key : (((pre.length : Nat) : Int) =
        JS.findIndex (fun t => t.hash == x.hash) (pre ++ x :: xs)) ↔ x.hash ∉ seen := by
      have := JS.findIndexFrom_append_eq (fun t => t.hash == x.hash) pre x xs 0
      simp only [Nat.zero_add] at this
      unfold JS.findIndex
      rw [eq_comm, this, hseen]
      simp
    have step := ih (pre ++ [x]) (x.hash :: seen) (by
      intro h
      simp only [List.mem_cons, List.mem_append, List.mem_singleton, List.not_mem_nil,
        or_false, hseen]
      constructor
      · rintro (rfl | ⟨y, hy, rfl⟩)
        · exact ⟨x, Or.inr rfl, rfl⟩
        · exact ⟨y, Or.inl hy, rfl⟩
      · rintro ⟨y, (hy | rfl), rfl⟩
        · exact Or.inr ⟨y, hy, rfl⟩
        · exact Or.inl rfl)
    have step2 := ih (pre ++ [x]) seen
    simp only [List.append_assoc, List.singleton_append, List.length_append,
      List.length_singleton] at step step2
    unfold JS.filterFrom keepFirstByHashAux
    by_cases hx : x.hash ∈ seen
    · rw [if_pos hx]
      have : ¬ (((pre.length : Nat) : Int) =
        JS.findIndex (fun t => t.hash == x.hash) (pre ++ x :: xs)) := by rw [key]; simpa using hx
      simp only [this, decide_False, Bool.false_eq_true, if_false]
      exact step2 (by
        intro h
        rw [hseen h]
        constructor
        · rintro ⟨y, hy, rfl⟩; exact ⟨y, List.mem_append_left _ hy, rfl⟩
        · rintro ⟨y, hy, rfl⟩
          rcases List.mem_append.1 hy with hy | hy
          · exact ⟨y, hy, rfl⟩
          · rw [List.mem_singleton.1 hy]; exact (hseen _).1 hx)
    · rw [if_neg hx]
      have : (((pre.length : Nat) : Int) =
        JS.findIndex (fun t => t.hash == x.hash) (pre ++ x :: xs)) := by rw [key]; exact hx
      simp only [this, decide_True, if_true]
      rw [step]

theorem keepFirstByHashAux_nodup (seen : List String) (l : List TransactionRecord) :
    ((keepFirstByHashAux seen l).map (fun t => t.hash)).Nodup ∧
      ∀ t ∈ keepFirstByHashAux seen l, t.hash ∉ seen := by
  induction l generalizing seen with
  | nil => simp [keepFirstByHashAux]
  | cons x xs ih =>
    unfold keepFirstByHashAux
    by_cases hx : x.hash ∈ seen
    · rw [if_pos hx]; exact ih seen
    · rw [if_neg hx]
      have h2 := ih (x.hash :: seen)
      refine ⟨?_, ?_⟩
      · rw [List.map_cons, List.nodup_cons]
        refine ⟨?_, h2.1⟩
        intro hmem
        rcases List.mem_map.1 hmem with ⟨t, ht, hte⟩
        exact h2.2 t ht (by rw [hte]; exact List.mem_cons_self _ _)
      · intro t ht
        rcases List.mem_cons.1 ht with rfl | ht
        · exact hx
        · exact fun hmem => h2.2 t ht (List.mem_cons_of_mem _ hmem)

theorem sendTransaction_setTransactions_eq (newTx : TransactionRecord)
    (prev : List TransactionRecord) :
    sendTransaction_setTransactions newTx prev =
      (keepFirstByHash (newTx :: prev)).take 10 := by
  have h := filterFrom_eq_keepFirst [] (newTx :: prev) [] (by simp)
  simp only [List.nil_append, List.length_nil] at h
  unfold sendTransaction_setTransactions JS.filter keepFirstByHash
  simp only []
  rw [h]
  exact JS.slice_zero_nat _ 10

theorem sendTransaction_ok (env : Env) (s : WalletState) (transactionHash : String)
    (h : (sendTransaction_try env s).result = .ok transactionHash) :
    sendTransaction env s =
      { state := { s with
          loading := false
          error := ""
          success := "Transaction sent successfully! Hash: " ++ transactionHash
          manualTransactions := sendTransaction_setManualTransactions
            (sendTransaction_newTx env s transactionHash) s.manualTransactions
          transactions := sendTransaction_setTransactions
            (sendTransaction_newTx env s transactionHash) s.transactions
          sendForm := { recipient := "", amount := "", gasPrice := "20" } }
        calls := (sendTransaction_try env s).calls } := by
  unfold sendTransaction
  simp only [h]

theorem sendTransaction_error (env : Env) (s : WalletState) (msg : String)
    (h : (sendTransaction_try env s).result = .error msg) :
    sendTransaction env s = sendFailed s msg (sendTransaction_try env s).calls := by
  unfold sendTransaction
  simp only [h]

theorem keepFirstByHashAux_sublist (seen : List String) (l : List TransactionRecord) :
    (keepFirstByHashAux seen l).Sublist l := by
  induction l generalizing seen with
  | nil => exact List.Sublist.slnil
  | cons x xs ih =>
    unfold keepFirstByHashAux
    by_cases hx : x.hash ∈ seen
    · rw [if_pos hx]; exact (ih seen).cons x
    · rw [if_neg hx]; exact (ih _).cons₂ x

theorem keepFirstByHashAux_find (seen : List String) (l : List TransactionRecord)
    (h : String) (hh : h ∉ seen) :
    (keepFirstByHashAux seen l).find? (fun t => t.hash == h) =
      l.find? (fun t => t.hash == h) := by
  induction l generalizing seen with
  | nil => rfl
  | cons x xs ih =>
    unfold keepFirstByHashAux
    by_cases hx : x.hash ∈ seen
    · rw [if_pos hx]
      have hne : (x.hash == h) = false := by
        simp only [beq_eq_false_iff_ne, ne_eq]
        intro e; rw [e] at hx; exact hh hx
      rw [List.find?_cons, hne]
      exact ih seen hh
    · rw [if_neg hx]
      by_cases he : x.hash = h
      · have : (x.hash == h) = true := by simp [he]
        rw [List.find?_cons, List.find?_cons, this]
      · have hne : (x.hash == h) = false := by simp [he]
        rw [List.find?_cons, List.find?_cons, hne]
        exact ih _ (by
          intro hm
          rcases List.mem_cons.1 hm with e | hm
          · exact he e.symm
          · exact hh hm)

theorem getTransactionHistory_try_length (env : Env) (web3Instance : Option Web3Instance)
    (address : String) (l : List TransactionRecord)
    (h : (getTransactionHistory_try env web3Instance address).result = .ok l) :
    l.length ≤ 10 := by
  unfold getTransactionHistory_try at h
  cases web3Instance with
  | none => simp at h
  | some w =>
    dsimp only at h
    cases hb : env.getBlockNumber with
    | error e => rw [hb] at h; simp at h
    | ok latestBlock =>
      rw [hb] at h
      dsimp only at h
      split at h
      · simp at h
      · rename_i l0 _
        simp only [Except.ok.injEq] at h
        rw [← h, show ((10 : Int) = ((10 : Nat) : Int)) from rfl, JS.slice_zero_nat]
        exact List.length_take_le _ _

theorem getTransactionHistory_transactions (env : Env) (s : WalletState)
    (web3Instance : Option Web3Instance) (address : String) :
    (getTransactionHistory env s web3Instance address).state.transactions.length ≤ 10 ∨
      (getTransactionHistory env s web3Instance address).state.transactions =
        s.transactions := by
  unfold getTransactionHistory
  dsimp only
  split
  · right; rfl
  · rename_i l hl
    left
    exact getTransactionHistory_try_length env web3Instance address l hl

theorem getBalance_transactions (env : Env) (s : WalletState)
    (web3Instance : Option Web3Instance) (address : String) :
    (getBalance env s web3Instance address).state.transactions = s.transactions := by
  unfold getBalance
  cases web3Instance with
  | none => rfl
  | some w =>
    simp only []
    cases env.getBalance address with
    | error e => rfl
    | ok b =>
      simp only []
      cases env.fromWei b "ether" with
      | error e => rfl
      | ok v => rfl

theorem sendTransaction_transactions (env : Env) (s : WalletState) :
    (sendTransaction env s).state.transactions.length ≤ 10 ∨
      (sendTransaction env s).state.transactions = s.transactions := by
  cases hr : (sendTransaction_try env s).result with
  | error e => right; rw [sendTransaction_error env s e hr]; rfl
  | ok h =>
    left
    rw [sendTransaction_ok env s h hr]
    simp only []
    rw [sendTransaction_setTransactions_eq]
    exact List.length_take_le _ _

theorem sendDemoTransaction_transactions (env : Env) (s : WalletState) :
    (sendDemoTransaction env s).state.transactions.length ≤ 10 ∨
      (sendDemoTransaction env s).state.transactions = s.transactions := by
  unfold sendDemoTransaction
  cases sendDemoTransaction_try s with
  | error e => right; rfl
  | ok u =>
    left
    simp only []
    unfold sendDemoTransaction_setTransactions
    rw [show ((9 : Int) = ((9 : Nat) : Int)) from rfl, JS.slice_zero_nat, List.length_cons]
    have := List.length_take_le 9 s.transactions
    omega

theorem refresh_transactions (env : Env) (s : WalletState) (w : Option Web3Instance)
    (address : String) :
    (getTransactionHistory env (getBalance env s w address).state w
        address).state.transactions.length ≤ 10 ∨
      (getTransactionHistory env (getBalance env s w address).state w
        address).state.transactions = s.transactions := by
  rcases getTransactionHistory_transactions env (getBalance env s w address).state w
    address with h | h
  · left; exact h
  · right; rw [h, getBalance_transactions]

theorem connectWallet_transactions (env : Env) (s : WalletState) :
    (connectWallet env s).state.transactions.length ≤ 10 ∨
      (connectWallet env s).state.transactions = s.transactions := by
  unfold connectWallet
  dsimp only
  split
  · split
    · right; rfl
    · right; rfl
    · split
      · right; rfl
      · exact refresh_transactions env _ _ _
  · right; rfl

theorem accountsChanged_transactions (env : Env) (s : WalletState) (accounts : List String) :
    (accountsChanged env s accounts).state.transactions.length ≤ 10 ∨
      (accountsChanged env s accounts).state.transactions = s.transactions := by
  unfold accountsChanged
  cases accounts with
  | nil => left; simp [disconnectWallet]
  | cons a rest =>
    dsimp only
    split
    · right; rfl
    · exact refresh_transactions env _ _ _

theorem step_transactions (env : Env) (a : Action) (s : WalletState) :
    (step env a s).transactions.length ≤ 10 ∨
      (step env a s).transactions = s.transactions := by
  cases a with
  | connectWallet => exact connectWallet_transactions env s
  | getBalance => right; exact getBalance_transactions env s _ _
  | getTransactionHistory => exact getTransactionHistory_transactions env s _ _
  | sendTransaction => exact sendTransaction_transactions env s
  | sendDemoTransaction => exact sendDemoTransaction_transactions env s
  | handleInputChange name value => right; cases name <;> rfl
  | enterDemoMode => left; simp [step, enterDemoMode]
  | disconnectWallet => left; simp [step, disconnectWallet]
  | accountsChanged accounts => exact accountsChanged_transactions env s accounts
  | dismissError => right; rfl
  | dismissSuccess => right; rfl

theorem reachable_transactions (s : WalletState) (h : Reachable s) :
    s.transactions.length ≤ 10 := by
  induction h with
  | initial => simp [WalletState.initial]
  | step env a s _ ih =>
    rcases step_transactions env a s with h | h
    · exact h
    · rw [h]; exact ih

/-! ## Claims -/

/-- C1: after a successful send (the `try` block of `sendTransaction` obtained
the hash `transactionHash`), whatever the previous displayed list
`s.transactions` was, the new displayed list is the first 10 elements of the
list `kept` obtained from `[newTx] ++ prev` by keeping, for each hash, only its
first occurrence: `kept` is a sublist of `[newTx] ++ prev` (relative order
preserved), no hash occurs twice in it, and for every hash the first record
carrying it in `kept` is the first record carrying it in `[newTx] ++ prev`. -/
theorem sendTransaction_merge_keeps_first_occurrence (env : Env) (s : WalletState)
    (transactionHash : String)
    (h : (sendTransaction_try env s).result = .ok transactionHash) :
    (sendTransaction env s).state.transactions =
        (keepFirstByHash (sendTransaction_newTx env s transactionHash :: s.transactions)).take 10 ∧
      (keepFirstByHash (sendTransaction_newTx env s transactionHash :: s.transactions)).Sublist
        (sendTransaction_newTx env s transactionHash :: s.transactions) ∧
      ((keepFirstByHash (sendTransaction_newTx env s transactionHash :: s.transactions)).map
        (fun t => t.hash)).Nodup ∧
      ∀ hash : String,
        (keepFirstByHash (sendTransaction_newTx env s transactionHash :: s.transactions)).find?
            (fun t => t.hash == hash) =
          (sendTransaction_newTx env s transactionHash :: s.transactions).find?
            (fun t => t.hash == hash) := by
  refine ⟨?_, keepFirstByHashAux_sublist _ _, (keepFirstByHashAux_nodup _ _).1, ?_⟩
  · rw [sendTransaction_ok env s transactionHash h]
    exact sendTransaction_setTransactions_eq _ _
  · intro hash
    exact keepFirstByHashAux_find [] _ hash (List.not_mem_nil _)

/-- Witness of C1: the sample wallet sends `1.0` ETH and the provider answers
with the hash `0xabc`. -/
theorem sendTransaction_merge_keeps_first_occurrence_witness :
    (sendTransaction_try sampleEnv sampleState).result = .ok "0xabc" ∧
      (sendTransaction sampleEnv sampleState).state.transactions =
        (keepFirstByHash
          (sendTransaction_newTx sampleEnv sampleState "0xabc" :: sampleState.transactions)).take 10 :=
  ⟨by decide, (sendTransaction_merge_keeps_first_occurrence sampleEnv sampleState "0xabc"
    (by decide)).1⟩

/-- C2: after a successful real send, whatever the previous displayed list was
(also one that already holds the returned hash, or that repeats hashes), the
head of the new displayed list is the locally built record (hash = the returned
`transactionHash`, type `sent`, blockNumber `Pending`, value = the submitted
amount, from = the account, to = the recipient), and no two records of the new
displayed list have the same hash. -/
theorem sendTransaction_head_and_nodup (env : Env) (s : WalletState)
    (transactionHash : String)
    (h : (sendTransaction_try env s).result = .ok transactionHash) :
    (sendTransaction env s).state.transactions.head? =
        some
          { hash := transactionHash
            from_ := some s.account
            to_ := some s.sendForm.recipient
            value := s.sendForm.amount
            blockNumber := BlockField.Pending
            timestamp := env.now
            type := TxType.sent } ∧
      ((sendTransaction env s).state.transactions.map (fun t => t.hash)).Nodup := by
  rw [sendTransaction_ok env s transactionHash h]
  simp only []
  rw [sendTransaction_setTransactions_eq]
  constructor
  · unfold keepFirstByHash keepFirstByHashAux
    rw [if_neg (List.not_mem_nil _)]
    rfl
  · rw [List.map_take]
    exact (keepFirstByHashAux_nodup _ _).1.sublist (List.take_sublist _ _)

/-- Witness of C2: a send whose returned hash `0xabc` is already displayed. -/
theorem sendTransaction_head_and_nodup_witness :
    (sendTransaction_try sampleEnv sampleStateWithDuplicates).result = .ok "0xabc" ∧
      ((sendTransaction sampleEnv sampleStateWithDuplicates).state.transactions.map
        (fun t => t.hash)) = ["0xabc", "0x1"] ∧
      ((sendTransaction sampleEnv sampleStateWithDuplicates).state.transactions.map
        (fun t => t.hash)).Nodup :=
  ⟨by decide, by decide,
    (sendTransaction_head_and_nodup sampleEnv sampleStateWithDuplicates "0xabc" (by decide)).2⟩

/-- C3: the displayed list has at most 10 records in every reachable state, and
each of `getTransactionHistory` (whatever the provider answers),
`sendTransaction`, `sendDemoTransaction`, `enterDemoMode` and
`disconnectWallet` leaves a list of at most 10 records whenever it writes the
list, whatever the previous list was (on its error paths a handler leaves the
list as it was). -/
theorem transactions_length_le_ten :
    (∀ s : WalletState, Reachable s → s.transactions.length ≤ 10) ∧
      (∀ (env : Env) (s : WalletState) (web3Instance : Option Web3Instance)
          (address : String),
        (getTransactionHistory env s web3Instance address).state.transactions.length ≤ 10 ∨
          (getTransactionHistory env s web3Instance address).state.transactions =
            s.transactions) ∧
      (∀ (env : Env) (s : WalletState),
        (sendTransaction env s).state.transactions.length ≤ 10 ∨
          (sendTransaction env s).state.transactions = s.transactions) ∧
      (∀ (env : Env) (s : WalletState),
        (sendDemoTransaction env s).state.transactions.length ≤ 10 ∨
          (sendDemoTransaction env s).state.transactions = s.transactions) ∧
      (∀ (env : Env) (s : WalletState), (enterDemoMode env s).transactions.length ≤ 10) ∧
      (∀ s : WalletState, (disconnectWallet s).transactions.length ≤ 10) :=
  ⟨reachable_transactions, getTransactionHistory_transactions, sendTransaction_transactions,
    sendDemoTransaction_transactions, fun _ _ => by simp [enterDemoMode],
    fun _ => by simp [disconnectWallet]⟩

/-- Witness of C3: the state reached by entering demo mode and sending once. -/
theorem transactions_length_le_ten_witness :
    Reachable (step sampleEnv .sendDemoTransaction
        (step sampleEnv .enterDemoMode WalletState.initial)) ∧
      (step sampleEnv .sendDemoTransaction
        (step sampleEnv .enterDemoMode WalletState.initial)).transactions.length ≤ 10 :=
  ⟨Reachable.step _ _ _ (Reachable.step _ _ _ Reachable.initial),
    transactions_length_le_ten.1 _
      (Reachable.step _ _ _ (Reachable.step _ _ _ Reachable.initial))⟩

theorem JS.Number.le_eq_false_of_gt (a b : JS.Number) (h : a.gt b = true) :
    a.le b = false := by
  unfold JS.Number.gt at h
  unfold JS.Number.le
  cases hl : JS.Number.lessThan b a with
  | none => rfl
  | some c =>
    rw [hl] at h
    cases c with
    | true => rfl
    | false => simp at h

theorem JS.Number.nan_gt (b : JS.Number) : JS.Number.gt .NaN b = false := by
  unfold JS.Number.gt
  cases b <;> rfl

theorem JS.parseFloat_empty : JS.parseFloat "" = .NaN := by decide

theorem JS.trim_empty : JS.trim "" = "" := by decide

theorem sendTransaction_try_above_balance (env : Env) (s : WalletState)
    (h : (JS.parseFloat s.sendForm.amount).gt (JS.parseFloat s.balance) = true) :
    sendTransaction_try env s =
      { calls := []
        result := .error
          (if JS.trim s.sendForm.recipient = "" then "Please enter a recipient address"
          else if (JS.parseFloat s.sendForm.amount).le zero then
            "Please enter a valid amount greater than 0"
          else "Insufficient balance for this transaction") } := by
  have hne : s.sendForm.amount ≠ "" := by
    intro e
    rw [e, JS.parseFloat_empty, JS.Number.nan_gt] at h
    exact Bool.false_ne_true h
  unfold sendTransaction_try
  dsimp only
  by_cases h1 : JS.trim s.sendForm.recipient = ""
  · rw [if_pos (Or.inr h1), if_pos h1]
  · have h1b : ¬ (s.sendForm.recipient = "" ∨ JS.trim s.sendForm.recipient = "") := by
      rintro (e | e)
      · rw [e] at h1; exact h1 JS.trim_empty
      · exact h1 e
    rw [if_neg h1b, if_neg h1]
    by_cases h2 : (JS.parseFloat s.sendForm.amount).le zero = true
    · rw [if_pos (Or.inr (Or.inr h2)), if_pos h2]
    · have h2b : ¬ (s.sendForm.amount = "" ∨ s.sendForm.amount = "" ∨
          (JS.parseFloat s.sendForm.amount).le zero = true) := by
        rintro (e | e | e)
        · exact hne e
        · exact hne e
        · exact h2 e
      rw [if_neg h2b, if_neg h2, if_pos h]

theorem sendDemoTransaction_try_above_balance (s : WalletState)
    (h : (JS.parseFloat s.sendForm.amount).gt (JS.parseFloat s.balance) = true) :
    sendDemoTransaction_try s =
      .error
        (if JS.trim s.sendForm.recipient = "" then "Please enter a recipient address"
        else if (JS.parseFloat s.sendForm.amount).le zero then
          "Please enter a valid amount greater than 0"
        else "Insufficient balance for this transaction") := by
  have hne : s.sendForm.amount ≠ "" := by
    intro e
    rw [e, JS.parseFloat_empty, JS.Number.nan_gt] at h
    exact Bool.false_ne_true h
  unfold sendDemoTransaction_try
  dsimp only
  by_cases h1 : JS.trim s.sendForm.recipient = ""
  · rw [if_pos (Or.inr h1), if_pos h1]
  · have h1b : ¬ (s.sendForm.recipient = "" ∨ JS.trim s.sendForm.recipient = "") := by
      rintro (e | e)
      · rw [e] at h1; exact h1 JS.trim_empty
      · exact h1 e
    rw [if_neg h1b, if_neg h1]
    by_cases h2 : (JS.parseFloat s.sendForm.amount).le zero = true
    · rw [if_pos (Or.inr (Or.inr h2)), if_pos h2]
    · have h2b : ¬ (s.sendForm.amount = "" ∨ s.sendForm.amount = "" ∨
          (JS.parseFloat s.sendForm.amount).le zero = true) := by
        rintro (e | e | e)
        · exact hne e
        · exact hne e
        · exact h2 e
      rw [if_neg h2b, if_neg h2, if_pos h]

theorem sendDemoTransaction_error (env : Env) (s : WalletState) (msg : String)
    (h : sendDemoTransaction_try s = .error msg) :
    sendDemoTransaction env s = sendFailed s msg [] := by
  unfold sendDemoTransaction
  rw [h]

/-- Counterexample to C4 as stated: with a non-empty recipient the message is
not always the insufficient-balance one. With the recipient `" "`, amount `5`
and balance `3.0000` both handlers answer `Please enter a recipient address`;
in the demo wallet overdrawn to `-0.0010` (reached by sending the whole balance
`10.5`), the amount `0` is above the balance and both handlers answer `Please
enter a valid amount greater than 0`. -/
theorem above_balance_message_counterexample :
    ((JS.parseFloat blankRecipientState.sendForm.amount).gt
        (JS.parseFloat blankRecipientState.balance) = true ∧
      blankRecipientState.sendForm.recipient ≠ "" ∧
      (sendTransaction sampleEnv blankRecipientState).state.error =
        "Please enter a recipient address" ∧
      (sendDemoTransaction sampleEnv blankRecipientState).state.error =
        "Please enter a recipient address") ∧
    (zeroAmountOverdrawnState.balance = "-0.0010" ∧
      (JS.parseFloat zeroAmountOverdrawnState.sendForm.amount).gt
        (JS.parseFloat zeroAmountOverdrawnState.balance) = true ∧
      JS.trim zeroAmountOverdrawnState.sendForm.recipient ≠ "" ∧
      (sendTransaction sampleEnv zeroAmountOverdrawnState).state.error =
        "Please enter a valid amount greater than 0" ∧
      (sendDemoTransaction sampleEnv zeroAmountOverdrawnState).state.error =
        "Please enter a valid amount greater than 0") := by
  decide

/-- C4, amended: when the amount parses to a number greater than the number
parsed from the displayed balance, `sendTransaction` and `sendDemoTransaction`
reject the submission: no provider call is made and the state is the previous
one (balance, displayed list, form, account untouched) with `loading` false,
`success` empty and `error` set; the message is `Please enter a recipient
address` for a blank recipient, else `Please enter a valid amount greater than
0` when the amount is `<= 0`, else `Insufficient balance for this transaction`,
so it is the latter whenever the recipient is not blank and the amount parses
to a number greater than 0. -/
theorem send_rejects_amount_above_balance (env : Env) (s : WalletState)
    (h : (JS.parseFloat s.sendForm.amount).gt (JS.parseFloat s.balance) = true) :
    (∃ msg : String,
      msg = (if JS.trim s.sendForm.recipient = "" then "Please enter a recipient address"
        else if (JS.parseFloat s.sendForm.amount).le zero then
          "Please enter a valid amount greater than 0"
        else "Insufficient balance for this transaction") ∧
      msg ≠ "" ∧
      sendTransaction env s = sendFailed s msg [] ∧
      sendDemoTransaction env s = sendFailed s msg [] ∧
      (sendTransaction env s).calls = [] ∧
      (sendDemoTransaction env s).calls = [] ∧
      (sendTransaction env s).state.error = msg ∧
      (sendDemoTransaction env s).state.error = msg ∧
      (sendTransaction env s).state.balance = s.balance ∧
      (sendDemoTransaction env s).state.balance = s.balance ∧
      (sendTransaction env s).state.transactions = s.transactions ∧
      (sendDemoTransaction env s).state.transactions = s.transactions) ∧
    (JS.trim s.sendForm.recipient ≠ "" →
      (JS.parseFloat s.sendForm.amount).gt zero = true →
      (sendTransaction env s).state.error = "Insufficient balance for this transaction" ∧
      (sendDemoTransaction env s).state.error =
        "Insufficient balance for this transaction") := by
  have e1 := sendTransaction_error env s _
    (congrArg Run.result (sendTransaction_try_above_balance env s h))
  have c1 := congrArg Run.calls (sendTransaction_try_above_balance env s h)
  dsimp only at c1
  rw [c1] at e1
  have e2 := sendDemoTransaction_error env s _ (sendDemoTransaction_try_above_balance s h)
  refine ⟨⟨_, rfl, ?_, e1, e2, ?_, ?_, ?_, ?_, ?_, ?_, ?_, ?_⟩, ?_⟩
  · split
    · decide
    · split <;> decide
  · rw [e1]; rfl
  · rw [e2]; rfl
  · rw [e1]; rfl
  · rw [e2]; rfl
  · rw [e1]; rfl
  · rw [e2]; rfl
  · rw [e1]; rfl
  · rw [e2]; rfl
  · intro hr hp
    have hle := JS.Number.le_eq_false_of_gt _ _ hp
    rw [e1, e2]
    simp only [sendFailed, if_neg hr, hle, Bool.false_eq_true, if_false, and_self]

/-- Witness of C4: amount `5`, balance `3.0000`, a recipient: both handlers
answer `Insufficient balance for this transaction`. -/
theorem send_rejects_amount_above_balance_witness :
    (JS.parseFloat aboveBalanceState.sendForm.amount).gt
        (JS.parseFloat aboveBalanceState.balance) = true ∧
      (sendTransaction sampleEnv aboveBalanceState).state.error =
        "Insufficient balance for this transaction" ∧
      (sendDemoTransaction sampleEnv aboveBalanceState).state.error =
        "Insufficient balance for this transaction" :=
  ⟨by decide,
    (send_rejects_amount_above_balance sampleEnv aboveBalanceState (by decide)).2
      (by decide) (by decide)⟩

/-- C5: in `sendTransaction`, for every recipient that `web3.utils.isAddress`
rejects, whatever the amount and the balance, the submission is rejected with
one of the four validation messages (the first failing check in source order),
neither `estimateGas` nor `sendTransaction` (nor any other provider call) is
issued, and nothing but `error`, `success` and `loading` is written. -/
theorem sendTransaction_rejects_malformed_recipient (env : Env) (s : WalletState)
    (w : Web3Instance) (hw : s.web3 = some w)
    (haddr : env.isAddress s.sendForm.recipient = false) :
    ∃ msg : String,
      msg = (if s.sendForm.recipient = "" ∨ JS.trim s.sendForm.recipient = "" then
          "Please enter a recipient address"
        else if s.sendForm.amount = "" ∨ (JS.parseFloat s.sendForm.amount).le zero then
          "Please enter a valid amount greater than 0"
        else if (JS.parseFloat s.sendForm.amount).gt (JS.parseFloat s.balance) then
          "Insufficient balance for this transaction"
        else "Invalid recipient address format") ∧
      msg ≠ "" ∧
      sendTransaction env s = sendFailed s msg [] ∧
      (sendTransaction env s).calls = [] ∧
      (sendTransaction env s).state.error = msg := by
  have key : sendTransaction_try env s =
      { calls := []
        result := .error
          (if s.sendForm.recipient = "" ∨ JS.trim s.sendForm.recipient = "" then
            "Please enter a recipient address"
          else if s.sendForm.amount = "" ∨ (JS.parseFloat s.sendForm.amount).le zero then
            "Please enter a valid amount greater than 0"
          else if (JS.parseFloat s.sendForm.amount).gt (JS.parseFloat s.balance) then
            "Insufficient balance for this transaction"
          else "Invalid recipient address format") } := by
    unfold sendTransaction_try
    dsimp only
    by_cases h1 : s.sendForm.recipient = "" ∨ JS.trim s.sendForm.recipient = ""
    · rw [if_pos h1, if_pos h1]
    · rw [if_neg h1, if_neg h1]
      by_cases h2 : s.sendForm.amount = "" ∨ (JS.parseFloat s.sendForm.amount).le zero = true
      · have h2b : s.sendForm.amount = "" ∨ s.sendForm.amount = "" ∨
            (JS.parseFloat s.sendForm.amount).le zero = true := by
          rcases h2 with e | e
          · exact Or.inl e
          · exact Or.inr (Or.inr e)
        rw [if_pos h2b, if_pos h2]
      · have h2b : ¬ (s.sendForm.amount = "" ∨ s.sendForm.amount = "" ∨
            (JS.parseFloat s.sendForm.amount).le zero = true) := by
          rintro (e | e | e)
          · exact h2 (Or.inl e)
          · exact h2 (Or.inl e)
          · exact h2 (Or.inr e)
        rw [if_neg h2b, if_neg h2]
        by_cases h3 : (JS.parseFloat s.sendForm.amount).gt (JS.parseFloat s.balance) = true
        · rw [if_pos h3, if_pos h3]
        · rw [if_neg h3, if_neg h3, hw]
          dsimp only
          rw [haddr]
          simp
  have e1 := sendTransaction_error env s _ (congrArg Run.result key)
  have c1 := congrArg Run.calls key
  dsimp only at c1
  rw [c1] at e1
  refine ⟨_, rfl, ?_, e1, ?_, ?_⟩
  · split
    · decide
    · split
      · decide
      · split <;> decide
  · rw [e1]; rfl
  · rw [e1]; rfl

/-- Witness of C5: the sample send with a library that rejects the recipient is
refused with `Invalid recipient address format`. -/
theorem sendTransaction_rejects_malformed_recipient_witness :
    sampleState.web3 = some { id := 1 } ∧
      strictEnv.isAddress sampleState.sendForm.recipient = false ∧
      (sendTransaction strictEnv sampleState).state.error =
        "Invalid recipient address format" ∧
      (sendTransaction strictEnv sampleState).calls = [] := by
  obtain ⟨msg, hmsg, _, _, hcalls, herr⟩ :=
    sendTransaction_rejects_malformed_recipient strictEnv sampleState { id := 1 }
      (by decide) (by decide)
  refine ⟨by decide, by decide, ?_, hcalls⟩
  rw [herr, hmsg]
  decide

/-- Counterexample to C6 as stated: with amount `0` and the empty recipient, or
a recipient made of one space, both handlers answer `Please enter a recipient
address`, not the amount message. -/
theorem zero_amount_message_counterexample :
    (zeroAmountNoRecipientState.sendForm.amount = "0" ∧
      (sendTransaction sampleEnv zeroAmountNoRecipientState).state.error =
        "Please enter a recipient address" ∧
      (sendDemoTransaction sampleEnv zeroAmountNoRecipientState).state.error =
        "Please enter a recipient address") ∧
    (zeroAmountBlankRecipientState.sendForm.amount = "0" ∧
      (sendTransaction sampleEnv zeroAmountBlankRecipientState).state.error =
        "Please enter a recipient address" ∧
      (sendDemoTransaction sampleEnv zeroAmountBlankRecipientState).state.error =
        "Please enter a recipient address") ∧
    "Please enter a recipient address" ≠ "Please enter a valid amount greater than 0" := by
  decide

/-- C6, amended: for amount `0` and any recipient, `sendTransaction` and
`sendDemoTransaction` reject the submission without a provider call; the message
is `Please enter a valid amount greater than 0` when the recipient is not blank
(not empty after trimming), and `Please enter a recipient address` when it is
blank, the recipient being checked first. -/
theorem send_rejects_zero_amount (env : Env) (s : WalletState)
    (h : s.sendForm.amount = "0") :
    sendTransaction env s =
        sendFailed s
          (if JS.trim s.sendForm.recipient = "" then "Please enter a recipient address"
          else "Please enter a valid amount greater than 0") [] ∧
      sendDemoTransaction env s =
        sendFailed s
          (if JS.trim s.sendForm.recipient = "" then "Please enter a recipient address"
          else "Please enter a valid amount greater than 0") [] ∧
      (JS.trim s.sendForm.recipient ≠ "" →
        (sendTransaction env s).state.error = "Please enter a valid amount greater than 0" ∧
        (sendDemoTransaction env s).state.error =
          "Please enter a valid amount greater than 0") := by
  have hz : (JS.parseFloat "0").le zero = true := by decide
  have k1 : sendTransaction_try env s =
      { calls := []
        result := .error
          (if JS.trim s.sendForm.recipient = "" then "Please enter a recipient address"
          else "Please enter a valid amount greater than 0") } := by
    unfold sendTransaction_try
    dsimp only
    by_cases h1 : JS.trim s.sendForm.recipient = ""
    · rw [if_pos (Or.inr h1), if_pos h1]
    · have h1b : ¬ (s.sendForm.recipient = "" ∨ JS.trim s.sendForm.recipient = "") := by
        rintro (e | e)
        · rw [e] at h1; exact h1 JS.trim_empty
        · exact h1 e
      rw [if_neg h1b, if_neg h1, h, if_pos (Or.inr (Or.inr hz))]
  have k2 : sendDemoTransaction_try s =
      .error
        (if JS.trim s.sendForm.recipient = "" then "Please enter a recipient address"
        else "Please enter a valid amount greater than 0") := by
    unfold sendDemoTransaction_try
    dsimp only
    by_cases h1 : JS.trim s.sendForm.recipient = ""
    · rw [if_pos (Or.inr h1), if_pos h1]
    · have h1b : ¬ (s.sendForm.recipient = "" ∨ JS.trim s.sendForm.recipient = "") := by
        rintro (e | e)
        · rw [e] at h1; exact h1 JS.trim_empty
        · exact h1 e
      rw [if_neg h1b, if_neg h1, h, if_pos (Or.inr (Or.inr hz))]
  have e1 := sendTransaction_error env s _ (congrArg Run.result k1)
  have c1 := congrArg Run.calls k1
  dsimp only at c1
  rw [c1] at e1
  have e2 := sendDemoTransaction_error env s _ k2
  refine ⟨e1, e2, ?_⟩
  intro hr
  rw [e1, e2]
  simp only [sendFailed, if_neg hr, and_self]

/-- Witness of C6: amount `0` with a recipient. -/
theorem send_rejects_zero_amount_witness :
    zeroAmountState.sendForm.amount = "0" ∧
      (sendTransaction sampleEnv zeroAmountState).state.error =
        "Please enter a valid amount greater than 0" ∧
      (sendDemoTransaction sampleEnv zeroAmountState).state.error =
        "Please enter a valid amount greater than 0" :=
  ⟨by decide, (send_rejects_zero_amount sampleEnv zeroAmountState (by decide)).2.2 (by decide)⟩

/-- C7: from every state, `disconnectWallet` clears the session: `web3` is
`null`, `account` is empty, `balance` is `0`, `isConnected` and `demoMode` are
false, the displayed history and the locally submitted list are empty,
`networkId` is `null`, `networkName` is empty, both loading flags are false,
`error` is empty and `success` is `Wallet disconnected`. -/
theorem disconnectWallet_clears_session (s : WalletState) :
    (disconnectWallet s).web3 = none ∧
      (disconnectWallet s).account = "" ∧
      (disconnectWallet s).balance = "0" ∧
      (disconnectWallet s).isConnected = false ∧
      (disconnectWallet s).demoMode = false ∧
      (disconnectWallet s).transactions = [] ∧
      (disconnectWallet s).manualTransactions = [] ∧
      (disconnectWallet s).networkId = none ∧
      (disconnectWallet s).networkName = "" ∧
      (disconnectWallet s).connectLoading = false ∧
      (disconnectWallet s).loading = false ∧
      (disconnectWallet s).error = "" ∧
      (disconnectWallet s).success = "Wallet disconnected" ∧
      disconnectWallet s = { WalletState.initial with
        sendForm := s.sendForm, success := "Wallet disconnected" } :=
  ⟨rfl, rfl, rfl, rfl, rfl, rfl, rfl, rfl, rfl, rfl, rfl, rfl, rfl, rfl⟩

/-- Counterexample to C8 as stated: the new record is not followed by all the
previous records. In the demo wallet that has submitted eight times the history
holds 10 records; a ninth valid submission leaves 10 records, and the oldest
one, present before, is gone. -/
theorem demo_send_drops_oldest_counterexample :
    sendDemoTransaction_try ninthDemoSendState = .ok () ∧
      ninthDemoSendState.transactions.length = 10 ∧
      demoStarterReceived ∈ ninthDemoSendState.transactions ∧
      demoStarterReceived ∉
        (sendDemoTransaction sampleEnv ninthDemoSendState).state.transactions ∧
      (sendDemoTransaction sampleEnv ninthDemoSendState).state.transactions.length = 10 ∧
      (sendDemoTransaction sampleEnv ninthDemoSendState).state.transactions ≠
        sendDemoTransaction_newTx sampleEnv ninthDemoSendState ::
          ninthDemoSendState.transactions := by
  decide

/-- C8, amended: for every demo send that passes validation, with amount `a` and
previous balance `b`, `sendDemoTransaction` sets the balance to the Number
`b - a - 0.001` rendered by `toFixed(4)`, and the displayed history becomes the
new record (type `sent`, from = account, to = recipient, value = `a`) followed by
the first 9 of the previous records, so by all of them when there were at most
9; no provider call is made. -/
theorem sendDemoTransaction_balance_and_history (env : Env) (s : WalletState)
    (h : sendDemoTransaction_try s = .ok ()) :
    (sendDemoTransaction env s).state.balance =
        (((JS.parseFloat s.balance).sub (JS.parseFloat s.sendForm.amount)).sub
          (JS.parseFloat "0.001")).toFixed 4 ∧
      (sendDemoTransaction env s).state.transactions =
        { hash := "0x" ++ env.randomHex
          from_ := some s.account
          to_ := some s.sendForm.recipient
          value := s.sendForm.amount
          blockNumber := BlockField.number 18567891
          timestamp := env.now
          type := TxType.sent } :: s.transactions.take 9 ∧
      (s.transactions.length ≤ 9 →
        (sendDemoTransaction env s).state.transactions =
          { hash := "0x" ++ env.randomHex
            from_ := some s.account
            to_ := some s.sendForm.recipient
            value := s.sendForm.amount
            blockNumber := BlockField.number 18567891
            timestamp := env.now
            type := TxType.sent } :: s.transactions) ∧
      (sendDemoTransaction env s).calls = [] := by
  have hfee : demoFee = JS.parseFloat "0.001" := by decide
  have ht : (sendDemoTransaction env s).state.transactions =
      sendDemoTransaction_newTx env s :: s.transactions.take 9 := by
    unfold sendDemoTransaction
    rw [h]
    dsimp only
    unfold sendDemoTransaction_setTransactions
    rw [show ((9 : Int) = ((9 : Nat) : Int)) from rfl, JS.slice_zero_nat]
  refine ⟨?_, ht, ?_, ?_⟩
  · unfold sendDemoTransaction
    rw [h, hfee]
  · intro hl
    rw [ht, List.take_of_length_le hl]
    rfl
  · unfold sendDemoTransaction
    rw [h]

/-- Witness of C8: the first demo send of `0.1` from the balance `10.5000`
leaves `10.3990` and three records. -/
theorem sendDemoTransaction_balance_and_history_witness :
    sendDemoTransaction_try firstDemoSendState = .ok () ∧
      (sendDemoTransaction sampleEnv firstDemoSendState).state.balance = "10.3990" ∧
      (sendDemoTransaction sampleEnv firstDemoSendState).state.transactions.length = 3 := by
  have h := sendDemoTransaction_balance_and_history sampleEnv firstDemoSendState (by decide)
  refine ⟨by decide, ?_, ?_⟩
  · rw [h.1]; decide
  · rw [h.2.1]; decide

/-- Counterexample to C9 as stated: the sender and the recipient of
`mixedCaseTx` are present and its sender equals the target address
case-insensitively, yet no record is emitted for it: no provider is injected,
so `weiToEth` throws `MetaMask is not installed` inside the callback, and
`getTransactionHistory` of web3Utils.js returns the empty list. -/
theorem utilsScanTx_conversion_counterexample :
    mixedCaseTx.from_ = some "0x742d35Cc6635Bc0532E3D7b2b9C24B2c5f07c9E7" ∧
      mixedCaseTx.to_ = some "0x123456789abcdef123456789abcdef123456789a" ∧
      mixedCaseNoInjectedEnv.toLowerCase "0x742d35Cc6635Bc0532E3D7b2b9C24B2c5f07c9E7" =
        mixedCaseNoInjectedEnv.toLowerCase lowerCaseAddress ∧
      matchesAddress mixedCaseNoInjectedEnv lowerCaseAddress mixedCaseTx.from_ = true ∧
      weiToEth mixedCaseNoInjectedEnv mixedCaseTx.value = .error "MetaMask is not installed" ∧
      utilsScanTx mixedCaseNoInjectedEnv lowerCaseAddress mixedCaseTx =
        .error "MetaMask is not installed" ∧
      utilsGetTransactionHistory mixedCaseNoInjectedEnv lowerCaseAddress 100 10 =
        ([], [ProviderCall.getBlockNumber, ProviderCall.getBlock 1]) := by
  decide

/-- C9, amended: for a scanned transaction whose sender `f` and recipient `t`
are present (non-empty strings) and whose value conversion `weiToEth` succeeds
(which needs an injected provider), the callback of `getTransactionHistory` in
web3Utils.js pushes a record if and only if `f` or `t` equals the target
address after `toLowerCase`; the record is tagged `sent` when the sender
matches (also in a self-transfer) and `received` otherwise, and nothing is
pushed when neither matches. -/
theorem utilsScanTx_emits_iff_matches (env : Env) (address : String) (tx : ChainTx)
    (f t v : String) (hf : tx.from_ = some f) (ht : tx.to_ = some t)
    (hf0 : f ≠ "") (ht0 : t ≠ "") (hv : weiToEth env tx.value = .ok v) :
    ((∃ r, utilsScanTx env address tx = .ok (some r)) ↔
        (env.toLowerCase f = env.toLowerCase address ∨
          env.toLowerCase t = env.toLowerCase address)) ∧
      (utilsScanTx env address tx = .ok none ↔
        ¬ (env.toLowerCase f = env.toLowerCase address ∨
          env.toLowerCase t = env.toLowerCase address)) ∧
      (∀ r, utilsScanTx env address tx = .ok (some r) →
        r.type = (if env.toLowerCase f = env.toLowerCase address then TxType.sent
          else TxType.received) ∧
        r.hash = tx.hash ∧ r.from_ = some f ∧ r.to_ = some t ∧ r.value = v) := by
  by_cases hm : env.toLowerCase f = env.toLowerCase address ∨
      env.toLowerCase t = env.toLowerCase address
  · have e : utilsScanTx env address tx = .ok (some
        { hash := tx.hash
          from_ := some f
          to_ := some t
          value := v
          blockNumber := match tx.blockNumber with
            | some n => .number n
            | none => .null
          timestamp := env.now
          type := if env.toLowerCase f = env.toLowerCase address then .sent else .received
          gasPrice := tx.gasPrice
          gas := tx.gas }) := by
      unfold utilsScanTx matchesAddress
      rw [hf, ht, hv]
      simp only [hf0, ht0, ne_eq, not_false_eq_true, decide_True, Bool.true_and, beq_iff_eq]
      rw [if_pos hm]
    rw [e]
    refine ⟨⟨fun _ => hm, fun _ => ⟨_, rfl⟩⟩, ⟨fun h => by simp at h, fun h => absurd hm h⟩, ?_⟩
    intro r hr
    simp only [Except.ok.injEq, Option.some.injEq] at hr
    subst hr
    exact ⟨rfl, rfl, rfl, rfl, rfl⟩
  · have e : utilsScanTx env address tx = .ok none := by
      unfold utilsScanTx matchesAddress
      rw [hf, ht]
      simp only [hf0, ht0, ne_eq, not_false_eq_true, decide_True, Bool.true_and, beq_iff_eq]
      rw [if_neg hm]
    rw [e]
    refine ⟨⟨fun h => ?_, fun h => absurd h hm⟩, ⟨fun _ => hm, fun _ => rfl⟩, ?_⟩
    · obtain ⟨r, hr⟩ := h
      simp at hr
    · intro r hr
      simp at hr

/-- Witness of C9: a sender in mixed case matches the lower-case target and is
tagged `sent`. -/
theorem utilsScanTx_emits_iff_matches_witness :
    ∃ r, utilsScanTx sampleEnv lowerCaseAddress mixedCaseTx = .ok (some r) ∧
      r.type = TxType.sent := by
  have h := utilsScanTx_emits_iff_matches sampleEnv lowerCaseAddress mixedCaseTx
    "0x742d35Cc6635Bc0532E3D7b2b9C24B2c5f07c9E7" "0x123456789abcdef123456789abcdef123456789a"
    "1000" (by decide) (by decide) (by decide) (by decide) (by decide)
  obtain ⟨r, hr⟩ := h.1.2 (Or.inl (by decide))
  exact ⟨r, hr, (h.2.2 r hr).1.trans (if_pos (by decide))⟩

/-- C10, the code at the failing input: the sender of `mixedCaseTx` differs
from the target address only in letter case, yet the page's callback pushes
nothing for it and the page's `getTransactionHistory` displays an empty list,
while the scanner of web3Utils.js returns the transaction tagged `sent`. -/
theorem page_scanner_is_case_sensitive :
    mixedCaseTx.from_.map sampleEnv.toLowerCase = some (sampleEnv.toLowerCase lowerCaseAddress) ∧
      pageScanTx mixedCaseEnv lowerCaseAddress mixedCaseTx = .ok none ∧
      (getTransactionHistory_try mixedCaseEnv (some { id := 1 }) lowerCaseAddress).result =
        .ok [] ∧
      (getTransactionHistory mixedCaseEnv sampleStateWithDuplicates (some { id := 1 })
        lowerCaseAddress).state.transactions = [] ∧
      (utilsGetTransactionHistory mixedCaseEnv lowerCaseAddress 100 10).1.map
        (fun r => (r.hash, r.type)) = [("0xfeed", TxType.sent)] := by
  decide

theorem scanBlockTxs_ok {ρ : Type} (f : ChainTx → Except String (Option ρ))
    (txs : List ChainTx) (acc : List ρ) (h : ∀ tx ∈ txs, ∃ r, f tx = .ok r) :
    scanBlockTxs f txs acc = .ok (acc ++ txs.filterMap
      (fun tx =>
        match f tx with
        | .ok r => r
        | .error _ => none)) := by
  induction txs generalizing acc with
  | nil => simp [scanBlockTxs]
  | cons tx rest ih =>
    obtain ⟨r, hr⟩ := h tx (List.mem_cons_self _ _)
    have hrest : ∀ t ∈ rest, ∃ r, f t = .ok r := fun t ht => h t (List.mem_cons_of_mem _ ht)
    unfold scanBlockTxs
    rw [hr]
    cases r with
    | none =>
      dsimp only
      rw [ih acc hrest, List.filterMap_cons, hr]
    | some v =>
      dsimp only
      rw [ih (acc ++ [v]) hrest, List.filterMap_cons, hr]
      simp

theorem scanLoop_calls {ρ : Type} (env : Env) (f : ChainTx → Except String (Option ρ))
    (latestBlock : Nat) (maxTransactions : Int) (remaining i : Nat) (acc : List ρ)
    (calls : List ProviderCall) :
    ∃ k, k ≤ remaining ∧
      (scanLoop env f latestBlock maxTransactions remaining i acc calls).calls =
        calls ++ (List.range' i k).map (fun j => ProviderCall.getBlock (latestBlock - j)) := by
  induction remaining generalizing i acc calls with
  | zero => exact ⟨0, le_refl _, by simp [scanLoop]⟩
  | succ n ih =>
    unfold scanLoop
    split
    · dsimp only
      have one : calls ++ [ProviderCall.getBlock (latestBlock - i)] =
          calls ++ (List.range' i 1).map (fun j => ProviderCall.getBlock (latestBlock - j)) := by
        simp
      have more : ∀ acc1, ∃ k, k ≤ n + 1 ∧
          (scanLoop env f latestBlock maxTransactions n (i + 1) acc1
            (calls ++ [ProviderCall.getBlock (latestBlock - i)])).calls =
          calls ++ (List.range' i k).map (fun j => ProviderCall.getBlock (latestBlock - j)) := by
        intro acc1
        obtain ⟨k, hk, e⟩ := ih (i + 1) acc1 (calls ++ [ProviderCall.getBlock (latestBlock - i)])
        refine ⟨k + 1, by omega, ?_⟩
        rw [e, List.range'_succ]
        simp
      split
      · exact ⟨1, by omega, one⟩
      · exact more acc
      · split
        · exact more acc
        · split
          · exact ⟨1, by omega, one⟩
          · exact more _
    · exact ⟨0, by omega, by simp⟩

theorem scanLoop_ok {ρ : Type} (env : Env) (f : ChainTx → Except String (Option ρ))
    (latestBlock : Nat) (maxTransactions : Int) (remaining i : Nat) (acc : List ρ)
    (calls : List ProviderCall)
    (hfetch : ∀ j, j < remaining → ∃ b, env.getBlock (latestBlock - (i + j)) = .ok b)
    (hconv : ∀ j, j < remaining → ∀ tx ∈ blockTransactions env (latestBlock - (i + j)),
      ∃ r, f tx = .ok r) :
    ∃ l, (scanLoop env f latestBlock maxTransactions remaining i acc calls).result = .ok l ∧
      l.take maxTransactions.toNat =
        (acc ++ (List.range' i remaining).flatMap
          (fun j => blockMatches env f (latestBlock - j))).take maxTransactions.toNat := by
  induction remaining generalizing i acc calls with
  | zero => exact ⟨acc, rfl, by simp⟩
  | succ n ih =>
    have hfetch' : ∀ j, j < n → ∃ b, env.getBlock (latestBlock - (i + 1 + j)) = .ok b := by
      intro j hj
      have := hfetch (j + 1) (by omega)
      rwa [show i + (j + 1) = i + 1 + j by omega] at this
    have hconv' : ∀ j, j < n → ∀ tx ∈ blockTransactions env (latestBlock - (i + 1 + j)),
        ∃ r, f tx = .ok r := by
      intro j hj
      have := hconv (j + 1) (by omega)
      rwa [show i + (j + 1) = i + 1 + j by omega] at this
    obtain ⟨b, hb⟩ := hfetch 0 (by omega)
    have hc0 := hconv 0 (by omega)
    rw [Nat.add_zero] at hb hc0
    unfold scanLoop
    split
    · dsimp only
      rw [hb]
      rw [List.range'_succ, List.flatMap_cons]
      cases b with
      | none =>
        dsimp only
        obtain ⟨l, hl, e⟩ := ih (i + 1) acc
          (calls ++ [ProviderCall.getBlock (latestBlock - i)]) hfetch' hconv'
        refine ⟨l, hl, ?_⟩
        rw [e]
        have : blockMatches env f (latestBlock - i) = [] := by
          simp [blockMatches, blockTransactions, hb]
        rw [this, List.nil_append]
      | some block =>
        dsimp only
        cases ht : block.transactions with
        | none =>
          dsimp only
          obtain ⟨l, hl, e⟩ := ih (i + 1) acc
            (calls ++ [ProviderCall.getBlock (latestBlock - i)]) hfetch' hconv'
          refine ⟨l, hl, ?_⟩
          rw [e]
          have : blockMatches env f (latestBlock - i) = [] := by
            simp [blockMatches, blockTransactions, hb, ht]
          rw [this, List.nil_append]
        | some txs =>
          dsimp only
          have htx : blockTransactions env (latestBlock - i) = txs := by
            simp [blockTransactions, hb, ht]
          rw [htx] at hc0
          rw [scanBlockTxs_ok f txs acc hc0]
          dsimp only
          obtain ⟨l, hl, e⟩ := ih (i + 1) _
            (calls ++ [ProviderCall.getBlock (latestBlock - i)]) hfetch' hconv'
          refine ⟨l, hl, ?_⟩
          rw [e]
          have : blockMatches env f (latestBlock - i) = txs.filterMap
              (fun tx =>
                match f tx with
                | .ok r => r
                | .error _ => none) := by
            simp [blockMatches, htx]
          rw [this, List.append_assoc]
    · rename_i hlen
      refine ⟨acc, rfl, ?_⟩
      have : maxTransactions.toNat ≤ acc.length := by omega
      rw [List.take_append_of_le_length this]

theorem exists_ok_of_isOk {ε α : Type} (x : Except ε α) (h : x.isOk = true) :
    ∃ r, x = .ok r := by
  cases x with
  | error e => simp [Except.isOk, Except.toBool] at h
  | ok r => exact ⟨r, rfl⟩

theorem JS.slice_zero_int {α : Type} (l : List α) (n : Int) (h : 0 ≤ n) :
    JS.slice l 0 n = l.take n.toNat := by
  have := JS.slice_zero_nat l n.toNat
  rwa [Int.toNat_of_nonneg h] at this

theorem utilsGetTransactionHistory_eq (env : Env) (address : String)
    (maxBlocks maxTransactions : Int) (latestBlock : Nat)
    (hnum : env.getBlockNumber = .ok latestBlock) :
    utilsGetTransactionHistory env address maxBlocks maxTransactions =
      (match (scanLoop env (utilsScanTx env address) latestBlock maxTransactions
          (min maxBlocks (latestBlock : Int)).toNat 0 [] [.getBlockNumber]).result with
        | .error _ => []
        | .ok transactions => JS.slice transactions 0 maxTransactions,
       (scanLoop env (utilsScanTx env address) latestBlock maxTransactions
          (min maxBlocks (latestBlock : Int)).toNat 0 [] [.getBlockNumber]).calls) := by
  unfold utilsGetTransactionHistory utilsGetTransactionHistory_try
  rw [hnum]
  dsimp only
  cases (scanLoop env (utilsScanTx env address) latestBlock maxTransactions
    (min maxBlocks (latestBlock : Int)).toNat 0 [] [.getBlockNumber]).result <;> rfl

/-- C11, amended: when `getBlockNumber` and every block fetch of the window
succeed, the callback throws on no transaction of the window (the value of
every matching transaction converts, which needs an injected provider, and it
has a sender) and `maxTransactions >= 0`,
`getTransactionHistory` of web3Utils.js returns exactly the first
`maxTransactions` records of the list of all matching transactions of the
blocks `latestBlock, latestBlock - 1, ..., latestBlock - window + 1` with
`window = min(maxBlocks, latestBlock)` (so stopping early gives what scanning
the whole window and truncating gives); the blocks fetched are the first `k`
of the window for some `k <= window`, and at most `maxTransactions` records
are returned. -/
theorem utilsGetTransactionHistory_returns_first_matches (env : Env) (address : String)
    (maxBlocks maxTransactions : Int) (latestBlock : Nat)
    (hnum : env.getBlockNumber = .ok latestBlock)
    (hfetch : ∀ i, i < (min maxBlocks (latestBlock : Int)).toNat →
      ∃ b, env.getBlock (latestBlock - i) = .ok b)
    (hconv : ∀ i, i < (min maxBlocks (latestBlock : Int)).toNat →
      ∀ tx ∈ blockTransactions env (latestBlock - i),
        ∃ r, utilsScanTx env address tx = .ok r)
    (hmax : 0 ≤ maxTransactions) :
    (utilsGetTransactionHistory env address maxBlocks maxTransactions).1 =
        (windowMatches env (utilsScanTx env address) latestBlock
          (min maxBlocks (latestBlock : Int)).toNat).take maxTransactions.toNat ∧
      (∃ k, k ≤ (min maxBlocks (latestBlock : Int)).toNat ∧
        (utilsGetTransactionHistory env address maxBlocks maxTransactions).2 =
          ProviderCall.getBlockNumber ::
            (List.range k).map (fun i => ProviderCall.getBlock (latestBlock - i))) ∧
      ((utilsGetTransactionHistory env address maxBlocks maxTransactions).1.length : Int) ≤
        maxTransactions := by
  have hres : (utilsGetTransactionHistory env address maxBlocks maxTransactions).1 =
      (windowMatches env (utilsScanTx env address) latestBlock
        (min maxBlocks (latestBlock : Int)).toNat).take maxTransactions.toNat := by
    rw [utilsGetTransactionHistory_eq env address maxBlocks maxTransactions latestBlock hnum]
    obtain ⟨l, hl, e⟩ := scanLoop_ok env (utilsScanTx env address) latestBlock maxTransactions
      (min maxBlocks (latestBlock : Int)).toNat 0 [] [.getBlockNumber]
      (by intro j hj; rw [Nat.zero_add]; exact hfetch j hj)
      (by intro j hj; rw [Nat.zero_add]; exact hconv j hj)
    dsimp only
    rw [hl]
    dsimp only
    rw [JS.slice_zero_int _ _ hmax, e, List.nil_append]
    unfold windowMatches
    rw [List.range_eq_range']
  refine ⟨hres, ?_, ?_⟩
  · rw [utilsGetTransactionHistory_eq env address maxBlocks maxTransactions latestBlock hnum]
    obtain ⟨k, hk, e⟩ := scanLoop_calls env (utilsScanTx env address) latestBlock
      maxTransactions (min maxBlocks (latestBlock : Int)).toNat 0 [] [.getBlockNumber]
    refine ⟨k, hk, ?_⟩
    dsimp only
    rw [e, List.range_eq_range']
    rfl
  · rw [hres]
    have := List.length_take_le maxTransactions.toNat
      (windowMatches env (utilsScanTx env address) latestBlock
        (min maxBlocks (latestBlock : Int)).toNat)
    omega

/-- Witness of C11: on the sample chain with `maxTransactions = 2` the scan
stops after block `3` and returns its two transactions. -/
theorem utilsGetTransactionHistory_returns_first_matches_witness :
    (utilsGetTransactionHistory windowEnv lowerCaseAddress 100 2).1.map (fun r => r.hash) =
        ["0x3a", "0x3b"] ∧
      (utilsGetTransactionHistory windowEnv lowerCaseAddress 100 2).2 =
        [ProviderCall.getBlockNumber, ProviderCall.getBlock 3] ∧
      (windowMatches windowEnv (utilsScanTx windowEnv lowerCaseAddress) 3 3).map
        (fun r => r.hash) = ["0x3a", "0x3b", "0x2b"] ∧
      (utilsGetTransactionHistory windowEnv lowerCaseAddress 100 2).1 =
        (windowMatches windowEnv (utilsScanTx windowEnv lowerCaseAddress) 3
          (min (100 : Int) ((3 : Nat) : Int)).toNat).take (2 : Int).toNat := by
  refine ⟨by decide, by decide, by decide,
    (utilsGetTransactionHistory_returns_first_matches windowEnv lowerCaseAddress 100 2 3 rfl
      ?_ ?_ (by decide)).1⟩
  · intro i hi
    have hi3 : i < 3 := hi
    interval_cases i <;> exact exists_ok_of_isOk _ (by decide)
  · intro i hi
    have hi3 : i < 3 := hi
    have h3 : ∀ tx ∈ sampleBlock3,
        (utilsScanTx windowEnv lowerCaseAddress tx).isOk = true := by decide
    have h2 : ∀ tx ∈ sampleBlock2,
        (utilsScanTx windowEnv lowerCaseAddress tx).isOk = true := by decide
    interval_cases i
    · exact fun tx htx => exists_ok_of_isOk _ (h3 tx htx)
    · exact fun tx htx => exists_ok_of_isOk _ (h2 tx htx)
    · exact fun tx htx => absurd htx (List.not_mem_nil _)

theorem scanBlockTxs_append {ρ : Type} (f : ChainTx → Except String (Option ρ))
    (txs : List ChainTx) (acc l : List ρ) (h : scanBlockTxs f txs acc = .ok l) :
    ∃ new, l = acc ++ new ∧ ∀ r ∈ new, ∃ tx ∈ txs, f tx = .ok (some r) := by
  induction txs generalizing acc with
  | nil =>
    simp only [scanBlockTxs, Except.ok.injEq] at h
    exact ⟨[], by simp [h], by simp⟩
  | cons tx rest ih =>
    unfold scanBlockTxs at h
    cases hf : f tx with
    | error e => rw [hf] at h; simp at h
    | ok o =>
      rw [hf] at h
      cases o with
      | none =>
        dsimp only at h
        obtain ⟨new, e, hn⟩ := ih acc h
        exact ⟨new, e, fun r hr => by
          obtain ⟨t, ht, hft⟩ := hn r hr
          exact ⟨t, List.mem_cons_of_mem _ ht, hft⟩⟩
      | some v =>
        dsimp only at h
        obtain ⟨new, e, hn⟩ := ih (acc ++ [v]) h
        refine ⟨v :: new, by rw [e]; simp, ?_⟩
        intro r hr
        rcases List.mem_cons.1 hr with rfl | hr
        · exact ⟨tx, List.mem_cons_self _ _, hf⟩
        · obtain ⟨t, ht, hft⟩ := hn r hr
          exact ⟨t, List.mem_cons_of_mem _ ht, hft⟩

theorem scanLoop_calls_mem {ρ : Type} (env : Env) (f : ChainTx → Except String (Option ρ))
    (latestBlock : Nat) (maxTransactions : Int) (remaining i : Nat) (acc : List ρ)
    (calls : List ProviderCall) (c : ProviderCall) (h : c ∈ calls) :
    c ∈ (scanLoop env f latestBlock maxTransactions remaining i acc calls).calls := by
  obtain ⟨k, _, e⟩ := scanLoop_calls env f latestBlock maxTransactions remaining i acc calls
  rw [e]
  exact List.mem_append_left _ h

theorem scanLoop_descending {ρ : Type} (env : Env) (f : ChainTx → Except String (Option ρ))
    (blockOf : ρ → BlockField)
    (hf : ∀ tx r, f tx = .ok (some r) →
      blockOf r = (match tx.blockNumber with
        | some n => BlockField.number n
        | none => BlockField.null))
    (latestBlock : Nat) (maxTransactions : Int) (remaining i : Nat) (acc : List ρ)
    (calls : List ProviderCall) (l : List ρ)
    (hgood : ∀ n, ProviderCall.getBlock n ∈
        (scanLoop env f latestBlock maxTransactions remaining i acc calls).calls →
      ∀ tx ∈ blockTransactions env n, tx.blockNumber = some n)
    (hsorted : acc.Pairwise (fun a b => ∃ m n, blockOf a = .number m ∧
      blockOf b = .number n ∧ n ≤ m))
    (hacc : ∀ r ∈ acc, ∃ m, blockOf r = .number m ∧ latestBlock - i ≤ m)
    (h : (scanLoop env f latestBlock maxTransactions remaining i acc calls).result = .ok l) :
    l.Pairwise (fun a b => ∃ m n, blockOf a = .number m ∧ blockOf b = .number n ∧ n ≤ m) := by
  induction remaining generalizing i acc calls with
  | zero =>
    simp only [scanLoop, Except.ok.injEq] at h
    rw [← h]; exact hsorted
  | succ n ih =>
    have hacc' : ∀ r ∈ acc, ∃ m, blockOf r = .number m ∧ latestBlock - (i + 1) ≤ m := by
      intro r hr
      obtain ⟨m, e, hm⟩ := hacc r hr
      exact ⟨m, e, by omega⟩
    by_cases hlen : (acc.length : Int) < maxTransactions
    · cases hb : env.getBlock (latestBlock - i) with
      | error e =>
        simp only [scanLoop, hlen, hb, if_true] at h
        simp at h
      | ok ob =>
        cases ob with
        | none =>
          simp only [scanLoop, hlen, hb, if_true] at h hgood
          exact ih (i + 1) acc _ hgood hsorted hacc' h
        | some block =>
          cases ht : block.transactions with
          | none =>
            simp only [scanLoop, hlen, hb, ht, if_true] at h hgood
            exact ih (i + 1) acc _ hgood hsorted hacc' h
          | some txs =>
            cases hs : scanBlockTxs f txs acc with
            | error e =>
              simp only [scanLoop, hlen, hb, ht, hs, if_true] at h
              simp at h
            | ok acc1 =>
              simp only [scanLoop, hlen, hb, ht, hs, if_true] at h hgood
              obtain ⟨new, e, hn⟩ := scanBlockTxs_append f txs acc acc1 hs
              have hblock : ∀ tx ∈ txs, tx.blockNumber = some (latestBlock - i) := by
                have := hgood (latestBlock - i)
                  (scanLoop_calls_mem env f latestBlock maxTransactions n (i + 1) acc1 _ _
                    (List.mem_append_right _ (List.mem_singleton_self _)))
                simpa [blockTransactions, hb, ht] using this
              have hnew : ∀ r ∈ new, blockOf r = .number (latestBlock - i) := by
                intro r hr
                obtain ⟨tx, htx, hftx⟩ := hn r hr
                rw [hf tx r hftx, hblock tx htx]
              refine ih (i + 1) acc1 _ hgood ?_ ?_ h
              · rw [e, List.pairwise_append]
                refine ⟨hsorted, ?_, ?_⟩
                · rw [List.pairwise_iff_forall_sublist]
                  intro a b hab
                  have ha := hnew a (hab.subset (List.mem_cons_self _ _))
                  have hb' := hnew b (hab.subset
                    (List.mem_cons_of_mem _ (List.mem_singleton_self _)))
                  exact ⟨_, _, ha, hb', le_refl _⟩
                · intro a ha b hb'
                  obtain ⟨m, em, hm⟩ := hacc a ha
                  exact ⟨m, _, em, hnew b hb', hm⟩
              · intro r hr
                rw [e] at hr
                rcases List.mem_append.1 hr with hr | hr
                · exact hacc' r hr
                · exact ⟨_, hnew r hr, by omega⟩
    · simp only [scanLoop, hlen, if_false, Except.ok.injEq] at h
      rw [← h]; exact hsorted

theorem JS.slice_sublist {α : Type} (l : List α) (start stop : Int) :
    (JS.slice l start stop).Sublist l := by
  unfold JS.slice
  exact (List.drop_sublist _ _).trans (List.take_sublist _ _)

theorem utilsScanTx_blockNumber (env : Env) (address : String) (tx : ChainTx)
    (r : HistoryRecord) (h : utilsScanTx env address tx = .ok (some r)) :
    r.blockNumber = (match tx.blockNumber with
      | some n => BlockField.number n
      | none => BlockField.null) := by
  unfold utilsScanTx at h
  split at h
  · split at h
    · simp at h
    · split at h
      · simp at h
      · simp only [Except.ok.injEq, Option.some.injEq] at h
        subst h
        rfl
  · simp at h

theorem pageScanTx_blockNumber (env : Env) (address : String) (tx : ChainTx)
    (r : TransactionRecord) (h : pageScanTx env address tx = .ok (some r)) :
    r.blockNumber = (match tx.blockNumber with
      | some n => BlockField.number n
      | none => BlockField.null) := by
  unfold pageScanTx at h
  split at h
  · split at h
    · simp at h
    · simp only [Except.ok.injEq, Option.some.injEq] at h
      subst h
      rfl
  · simp at h

/-- C12: the records returned by `getTransactionHistory` of web3Utils.js, and
the records the page's `getTransactionHistory` writes to the displayed list,
are in block-descending order: when every transaction of a fetched block
carries that block's number, of any two returned records the earlier one has a
`blockNumber` greater than or equal to the later one's. -/
theorem getTransactionHistory_block_descending (env : Env) (address : String)
    (maxBlocks maxTransactions : Int) :
    ((∀ n, ProviderCall.getBlock n ∈
          (utilsGetTransactionHistory env address maxBlocks maxTransactions).2 →
        ∀ tx ∈ blockTransactions env n, tx.blockNumber = some n) →
      (utilsGetTransactionHistory env address maxBlocks maxTransactions).1.Pairwise
        (fun a b => ∃ m n, a.blockNumber = .number m ∧ b.blockNumber = .number n ∧ n ≤ m)) ∧
    (∀ (web3Instance : Option Web3Instance) (l : List TransactionRecord),
      (∀ n, ProviderCall.getBlock n ∈
          (getTransactionHistory_try env web3Instance address).calls →
        ∀ tx ∈ blockTransactions env n, tx.blockNumber = some n) →
      (getTransactionHistory_try env web3Instance address).result = .ok l →
      l.Pairwise
        (fun a b => ∃ m n, a.blockNumber = .number m ∧ b.blockNumber = .number n ∧ n ≤ m)) := by
  constructor
  · intro hgood
    cases hnum : env.getBlockNumber with
    | error e =>
      have : (utilsGetTransactionHistory env address maxBlocks maxTransactions).1 = [] := by
        simp [utilsGetTransactionHistory, utilsGetTransactionHistory_try, hnum]
      rw [this]
      exact List.Pairwise.nil
    | ok latestBlock =>
      rw [utilsGetTransactionHistory_eq env address maxBlocks maxTransactions latestBlock
        hnum] at hgood ⊢
      dsimp only at hgood ⊢
      cases hr : (scanLoop env (utilsScanTx env address) latestBlock maxTransactions
        (min maxBlocks (latestBlock : Int)).toNat 0 [] [.getBlockNumber]).result with
      | error e => exact List.Pairwise.nil
      | ok l =>
        dsimp only
        exact (scanLoop_descending env (utilsScanTx env address) (fun r => r.blockNumber)
          (utilsScanTx_blockNumber env address) latestBlock maxTransactions _ 0 [] _ l hgood
          List.Pairwise.nil (fun r hr => absurd hr (List.not_mem_nil _)) hr).sublist
          (JS.slice_sublist _ _ _)
  · intro web3Instance l hgood hl
    unfold getTransactionHistory_try at hgood hl
    cases web3Instance with
    | none => simp at hl
    | some w =>
      dsimp only at hgood hl
      cases hnum : env.getBlockNumber with
      | error e => rw [hnum] at hl; simp at hl
      | ok latestBlock =>
        rw [hnum] at hgood hl
        dsimp only at hgood hl
        cases hr : (scanLoop env (pageScanTx env address) latestBlock 10
          (min 1000 latestBlock) 0 [] [.getBlockNumber]).result with
        | error e => rw [hr] at hl; simp at hl
        | ok l0 =>
          rw [hr] at hl
          simp only [Except.ok.injEq] at hl
          rw [← hl]
          exact (scanLoop_descending env (pageScanTx env address) (fun r => r.blockNumber)
            (pageScanTx_blockNumber env address) latestBlock 10 _ 0 [] _ l0 hgood
            List.Pairwise.nil (fun r hr => absurd hr (List.not_mem_nil _)) hr).sublist
            (JS.slice_sublist _ _ _)

/-- Witness of C12: on the sample chain both scanners return block numbers
`3, 3, 2` resp. `3, 2`, in descending order. -/
theorem getTransactionHistory_block_descending_witness :
    (utilsGetTransactionHistory windowEnv lowerCaseAddress 100 10).1.map
        (fun r => r.blockNumber) = [.number 3, .number 3, .number 2] ∧
      (utilsGetTransactionHistory windowEnv lowerCaseAddress 100 10).1.Pairwise
        (fun a b => ∃ m n, a.blockNumber = .number m ∧ b.blockNumber = .number n ∧ n ≤ m) := by
  refine ⟨by decide,
    (getTransactionHistory_block_descending windowEnv lowerCaseAddress 100 10).1 ?_⟩
  have hcalls : (utilsGetTransactionHistory windowEnv lowerCaseAddress 100 10).2 =
      [.getBlockNumber, .getBlock 3, .getBlock 2, .getBlock 1] := by decide
  rw [hcalls]
  intro n hn
  simp at hn
  rcases hn with rfl | rfl | rfl <;> decide

theorem scanLoop_error {ρ : Type} (env : Env) (f : ChainTx → Except String (Option ρ))
    (latestBlock : Nat) (maxTransactions : Int) (remaining i : Nat) (acc : List ρ)
    (calls : List ProviderCall) (n : Nat) (e : String) (herr : env.getBlock n = .error e)
    (hin : ProviderCall.getBlock n ∈
      (scanLoop env f latestBlock maxTransactions remaining i acc calls).calls)
    (hnot : ProviderCall.getBlock n ∉ calls) :
    ∃ msg, (scanLoop env f latestBlock maxTransactions remaining i acc calls).result =
      .error msg := by
  induction remaining generalizing i acc calls with
  | zero => simp only [scanLoop] at hin; exact absurd hin hnot
  | succ k ih =>
    by_cases hlen : (acc.length : Int) < maxTransactions
    · cases hb : env.getBlock (latestBlock - i) with
      | error e1 =>
        simp only [scanLoop, hlen, hb, if_true]
        exact ⟨e1, rfl⟩
      | ok ob =>
        have hne : n ≠ latestBlock - i := by
          intro e1; rw [e1, hb] at herr; simp at herr
        have hnot' : ProviderCall.getBlock n ∉
            calls ++ [ProviderCall.getBlock (latestBlock - i)] := by
          intro hm
          rcases List.mem_append.1 hm with hm | hm
          · exact hnot hm
          · simp only [List.mem_singleton, ProviderCall.getBlock.injEq] at hm
            exact hne hm
        cases ob with
        | none =>
          simp only [scanLoop, hlen, hb, if_true] at hin ⊢
          exact ih (i + 1) acc _ hin hnot'
        | some block =>
          cases ht : block.transactions with
          | none =>
            simp only [scanLoop, hlen, hb, ht, if_true] at hin ⊢
            exact ih (i + 1) acc _ hin hnot'
          | some txs =>
            cases hs : scanBlockTxs f txs acc with
            | error e1 =>
              simp only [scanLoop, hlen, hb, ht, hs, if_true]
              exact ⟨e1, rfl⟩
            | ok acc1 =>
              simp only [scanLoop, hlen, hb, ht, hs, if_true] at hin ⊢
              exact ih (i + 1) acc1 _ hin hnot'
    · simp only [scanLoop, hlen, if_false] at hin
      exact absurd hin hnot

/-- C13: if `getBlockNumber` fails, or a block fetch issued during the scan
fails, `getTransactionHistory` of web3Utils.js does not propagate the error and
returns the empty list, whatever was collected from the blocks fetched before. -/
theorem utilsGetTransactionHistory_soft_failure (env : Env) (address : String)
    (maxBlocks maxTransactions : Int) :
    (∀ e, env.getBlockNumber = .error e →
      utilsGetTransactionHistory env address maxBlocks maxTransactions =
        ([], [ProviderCall.getBlockNumber])) ∧
    (∀ n e, ProviderCall.getBlock n ∈
        (utilsGetTransactionHistory env address maxBlocks maxTransactions).2 →
      env.getBlock n = .error e →
      (utilsGetTransactionHistory env address maxBlocks maxTransactions).1 = []) := by
  constructor
  · intro e he
    simp [utilsGetTransactionHistory, utilsGetTransactionHistory_try, he]
  · intro n e hin herr
    cases hnum : env.getBlockNumber with
    | error e1 => simp [utilsGetTransactionHistory, utilsGetTransactionHistory_try, hnum]
    | ok latestBlock =>
      rw [utilsGetTransactionHistory_eq env address maxBlocks maxTransactions latestBlock
        hnum] at hin ⊢
      dsimp only at hin ⊢
      obtain ⟨msg, hmsg⟩ := scanLoop_error env (utilsScanTx env address) latestBlock
        maxTransactions _ 0 [] [.getBlockNumber] n e herr hin (by simp)
      rw [hmsg]

/-- Witness of C13: on the sample chain the two matches of block `3` are
collected, the fetch of block `2` fails, and the function returns `[]`. -/
theorem utilsGetTransactionHistory_soft_failure_witness :
    (utilsGetTransactionHistory windowEnv lowerCaseAddress 1 10).1.length = 2 ∧
      (utilsGetTransactionHistory brokenEnv lowerCaseAddress 100 10).2 =
        [.getBlockNumber, .getBlock 3, .getBlock 2] ∧
      (utilsGetTransactionHistory brokenEnv lowerCaseAddress 100 10).1 = [] :=
  ⟨by decide, by decide,
    (utilsGetTransactionHistory_soft_failure brokenEnv lowerCaseAddress 100 10).2 2
      "header not found" (by decide) (by decide)⟩

/-- Counterexample to C14 as stated: the wallet displays three records, the
history scan fails (`getBlockNumber` is rejected, or the fetch of block `2` is),
and the displayed history is afterwards the same three records, not the empty
list. -/
theorem failed_scan_keeps_history_counterexample :
    sampleStateWithDuplicates.transactions.length = 3 ∧
      (getTransactionHistory_try offlineEnv (some { id := 1 }) lowerCaseAddress).result =
        .error "network error" ∧
      (getTransactionHistory offlineEnv sampleStateWithDuplicates (some { id := 1 })
        lowerCaseAddress).state.transactions = sampleStateWithDuplicates.transactions ∧
      (getTransactionHistory_try brokenEnv (some { id := 1 }) lowerCaseAddress).result =
        .error "header not found" ∧
      (getTransactionHistory brokenEnv sampleStateWithDuplicates (some { id := 1 })
        lowerCaseAddress).state.transactions = sampleStateWithDuplicates.transactions ∧
      (getTransactionHistory offlineEnv sampleStateWithDuplicates (some { id := 1 })
        lowerCaseAddress).state.transactions ≠ [] := by
  decide

/-- C14, amended: when the page's history scan fails (a provider call or a
conversion inside `getTransactionHistory` throws), the error is swallowed and
nothing is written: the whole state, so the displayed history and the `error`
cell, is afterwards what it was before. -/
theorem getTransactionHistory_failure_writes_nothing (env : Env) (s : WalletState)
    (web3Instance : Option Web3Instance) (address msg : String)
    (h : (getTransactionHistory_try env web3Instance address).result = .error msg) :
    (getTransactionHistory env s web3Instance address).state = s ∧
      (getTransactionHistory env s web3Instance address).state.transactions =
        s.transactions ∧
      (getTransactionHistory env s web3Instance address).state.error = s.error := by
  have e : (getTransactionHistory env s web3Instance address).state = s := by
    unfold getTransactionHistory
    dsimp only
    rw [h]
  exact ⟨e, by rw [e], by rw [e]⟩

/-- Witness of C14: the scan of the chain whose block `2` cannot be fetched. -/
theorem getTransactionHistory_failure_writes_nothing_witness :
    (getTransactionHistory_try brokenEnv (some { id := 1 }) lowerCaseAddress).result =
        .error "header not found" ∧
      (getTransactionHistory brokenEnv sampleStateWithDuplicates (some { id := 1 })
        lowerCaseAddress).state = sampleStateWithDuplicates :=
  ⟨by decide,
    (getTransactionHistory_failure_writes_nothing brokenEnv sampleStateWithDuplicates
      (some { id := 1 }) lowerCaseAddress "header not found" (by decide)).1⟩

/-- C15, the code at the failing input: after a successful send the pending
record `0xabc` is in the displayed list and in the locally submitted list; a
successful refresh of the history then replaces the displayed list by the two
scanned records, and the locally submitted record, which the scan did not
return, is gone from the display although only two records are shown. -/
theorem refresh_drops_local_records :
    afterSendState.transactions.map (fun t => t.hash) = ["0xabc"] ∧
      afterSendState.manualTransactions.map (fun t => t.hash) = ["0xabc"] ∧
      (getTransactionHistory_try windowEnv afterSendState.web3
        afterSendState.account).result.isOk = true ∧
      afterRefreshState.transactions.map (fun t => t.hash) = ["0x3b", "0x2b"] ∧
      afterRefreshState.manualTransactions = afterSendState.manualTransactions ∧
      (∀ t ∈ afterRefreshState.manualTransactions, t ∉ afterRefreshState.transactions) := by
  decide

theorem getTransactionHistory_state (env : Env) (s : WalletState)
    (web3Instance : Option Web3Instance) (address : String) :
    (getTransactionHistory env s web3Instance address).state =
      { s with
        transactions := (getTransactionHistory env s web3Instance address).state.transactions } := by
  unfold getTransactionHistory
  dsimp only
  split <;> rfl

theorem getBalance_state (env : Env) (s : WalletState)
    (web3Instance : Option Web3Instance) (address : String) :
    (getBalance env s web3Instance address).state =
      { s with balance := (getBalance env s web3Instance address).state.balance } := by
  unfold getBalance
  split
  · rfl
  · split
    · rfl
    · split <;> rfl

/-- C16: for every chain identifier the provider reports, `getNetworkInfo`
returns that identifier with the name of the table `NETWORKS` when it is one of
its keys `1`, `5`, `11155111`, `1337`, and otherwise with the name `Network ID: `
followed by the identifier in decimal; a successful `connectWallet` sets
`networkId` to the identifier and computes `networkName` the same way over the
page's table `networkNames`. -/
theorem getNetworkInfo_name (env : Env) (networkId : Nat)
    (h : env.netGetId = .ok networkId) :
    getNetworkInfo env =
        .ok
          { networkId := networkId
            networkName :=
              if networkId = 1 then "Ethereum Mainnet"
              else if networkId = 5 then "Goerli Testnet"
              else if networkId = 11155111 then "Sepolia Testnet"
              else if networkId = 1337 then "Local Development"
              else "Network ID: " ++ String.mk (JS.natDigits networkId)
            network := NETWORKS networkId } ∧
      ((NETWORKS networkId).isSome = true ↔
        networkId = 1 ∨ networkId = 5 ∨ networkId = 11155111 ∨ networkId = 1337) ∧
      (∀ (s : WalletState) (account0 : String) (rest : List String),
        env.ethereum = true → env.requestAccounts = .ok (account0 :: rest) →
        (connectWallet env s).state.networkId = some networkId ∧
        (connectWallet env s).state.networkName =
          (match networkNames networkId with
            | some name => name
            | none => "Network ID: " ++ String.mk (JS.natDigits networkId))) := by
  refine ⟨?_, ?_, ?_⟩
  · unfold getNetworkInfo
    rw [h]
    dsimp only
    unfold NETWORKS
    by_cases h1 : networkId = 1
    · simp [h1]
    · by_cases h5 : networkId = 5
      · simp [h5]
      · by_cases h11 : networkId = 11155111
        · simp [h11]
        · by_cases h13 : networkId = 1337
          · simp [h13]
          · simp [h1, h5, h11, h13]
  · unfold NETWORKS
    by_cases h1 : networkId = 1
    · simp [h1]
    · by_cases h5 : networkId = 5
      · simp [h5]
      · by_cases h11 : networkId = 11155111
        · simp [h11]
        · by_cases h13 : networkId = 1337
          · simp [h13]
          · simp [h1, h5, h11, h13]
  · intro s account0 rest heth hacc
    unfold connectWallet
    dsimp only
    rw [if_pos heth, hacc]
    dsimp only
    rw [h]
    dsimp only
    rw [getTransactionHistory_state, getBalance_state]
    exact ⟨rfl, rfl⟩

/-- Witness of C16: the chain `137` is in neither table. -/
theorem getNetworkInfo_name_witness :
    polygonEnv.netGetId = .ok 137 ∧
      getNetworkInfo polygonEnv =
        .ok { networkId := 137, networkName := "Network ID: 137", network := none } ∧
      (connectWallet polygonEnv WalletState.initial).state.networkName = "Network ID: 137" ∧
      getNetworkInfo sampleEnv =
        .ok { networkId := 1, networkName := "Ethereum Mainnet", network := NETWORKS 1 } := by
  have h := getNetworkInfo_name polygonEnv 137 rfl
  refine ⟨rfl, ?_, ?_, by decide⟩
  · rw [h.1]; decide
  · rw [(h.2.2 WalletState.initial _ [] rfl rfl).2]; decide

/-- C19: in `sendTransaction` and `sendDemoTransaction` a submission whose `try`
block throws, in particular one that fails a validation check, is atomic: the
state is the previous one with only `error` (the thrown message), `success`
(emptied) and `loading` (false) written, so the balance, the account, the
displayed list, the locally submitted list and the send form are as before;
a failed validation of `sendDemoTransaction` issues no provider call. -/
theorem failed_submission_is_atomic (env : Env) (s : WalletState) (msg : String) :
    ((sendTransaction_try env s).result = .error msg →
      (sendTransaction env s).state =
          { s with loading := false, error := msg, success := "" } ∧
        (sendTransaction env s).state.balance = s.balance ∧
        (sendTransaction env s).state.account = s.account ∧
        (sendTransaction env s).state.transactions = s.transactions ∧
        (sendTransaction env s).state.manualTransactions = s.manualTransactions ∧
        (sendTransaction env s).state.sendForm = s.sendForm) ∧
    (sendDemoTransaction_try s = .error msg →
      (sendDemoTransaction env s).state =
          { s with loading := false, error := msg, success := "" } ∧
        (sendDemoTransaction env s).calls = [] ∧
        (sendDemoTransaction env s).state.balance = s.balance ∧
        (sendDemoTransaction env s).state.account = s.account ∧
        (sendDemoTransaction env s).state.transactions = s.transactions ∧
        (sendDemoTransaction env s).state.manualTransactions = s.manualTransactions ∧
        (sendDemoTransaction env s).state.sendForm = s.sendForm) := by
  constructor
  · intro h
    rw [sendTransaction_error env s msg h]
    exact ⟨rfl, rfl, rfl, rfl, rfl, rfl⟩
  · intro h
    rw [sendDemoTransaction_error env s msg h]
    exact ⟨rfl, rfl, rfl, rfl, rfl, rfl, rfl⟩

/-- Witness of C19: the submission of the amount `0`. -/
theorem failed_submission_is_atomic_witness :
    (sendTransaction_try sampleEnv zeroAmountState).result =
        .error "Please enter a valid amount greater than 0" ∧
      sendDemoTransaction_try zeroAmountState =
        .error "Please enter a valid amount greater than 0" ∧
      (sendTransaction sampleEnv zeroAmountState).state =
        { zeroAmountState with
          loading := false, error := "Please enter a valid amount greater than 0"
          success := "" } ∧
      (sendDemoTransaction sampleEnv zeroAmountState).state.sendForm =
        zeroAmountState.sendForm :=
  ⟨by decide, by decide,
    ((failed_submission_is_atomic sampleEnv zeroAmountState
      "Please enter a valid amount greater than 0").1 (by decide)).1,
    ((failed_submission_is_atomic sampleEnv zeroAmountState
      "Please enter a valid amount greater than 0").2 (by decide)).2.2.2.2.2.2⟩

theorem JS.substring_head {α : Type} (s : List α) (n : Int) (h0 : 0 ≤ n)
    (h : n ≤ (s.length : Int)) : JS.substring s 0 (some n) = s.take n.toNat := by
  unfold JS.substring
  dsimp only
  have e1 : max (min (max (0 : Int) 0) (s.length : Int)) (min (max n 0) (s.length : Int)) = n := by
    omega
  have e2 : min (min (max (0 : Int) 0) (s.length : Int)) (min (max n 0) (s.length : Int)) = 0 := by
    omega
  rw [e1, e2]
  rfl

theorem JS.substring_tail {α : Type} (s : List α) (n : Int) (h0 : 0 ≤ n)
    (h : n ≤ (s.length : Int)) :
    JS.substring s ((s.length : Int) - n) none = s.drop (s.length - n.toNat) := by
  unfold JS.substring
  dsimp only
  have e1 : max (min (max ((s.length : Int) - n) 0) (s.length : Int))
      (min (max (s.length : Int) 0) (s.length : Int)) = (s.length : Int) := by omega
  have e2 : min (min (max ((s.length : Int) - n) 0) (s.length : Int))
      (min (max (s.length : Int) 0) (s.length : Int)) = (s.length : Int) - n := by omega
  rw [e1, e2]
  have e3 : ((s.length : Int) - n).toNat = s.length - n.toNat := by omega
  rw [e3, Int.toNat_ofNat, List.take_length]

theorem formatAddress_long (a : List Nat) (startChars endChars : Int)
    (hs : 0 ≤ startChars) (he : 0 ≤ endChars)
    (h : startChars + endChars < (a.length : Int)) :
    formatAddress (some a) startChars endChars =
      a.take startChars.toNat ++ JS.utf16 "..." ++ a.drop (a.length - endChars.toNat) := by
  unfold formatAddress
  dsimp only
  have hne : a ≠ [] := by
    intro e
    rw [e] at h
    simp at h
    omega
  rw [if_neg hne, if_neg (by omega), JS.substring_head a startChars hs (by omega),
    JS.substring_tail a endChars he (by omega)]

theorem JS.utf16_dots : JS.utf16 "..." = [46, 46, 46] := by decide

theorem formatAddress_short (a : List Nat) (startChars endChars : Int)
    (h : (a.length : Int) ≤ startChars + endChars) :
    formatAddress (some a) startChars endChars = a := by
  unfold formatAddress
  dsimp only
  by_cases hne : a = []
  · rw [if_pos hne, hne]
  · rw [if_neg hne, if_pos h]

theorem formatAddress_long_length (a : List Nat) (s e : Int) (hs : 0 ≤ s) (he : 0 ≤ e)
    (h : s + e < (a.length : Int)) :
    ((a.take s.toNat).length : Int) = s ∧
      ((a.drop (a.length - e.toNat)).length : Int) = e ∧
      ((formatAddress (some a) s e).length : Int) = s + e + 3 := by
  have h1 : (a.take s.toNat).length = s.toNat := by
    rw [List.length_take]; omega
  have h2 : (a.drop (a.length - e.toNat)).length = e.toNat := by
    rw [List.length_drop]; omega
  refine ⟨by omega, by omega, ?_⟩
  rw [formatAddress_long a s e hs he h, List.length_append, List.length_append, h1, h2,
    JS.utf16_dots]
  simp only [List.length_cons, List.length_nil]
  omega

/-- C17: for non-negative `startChars` and `endChars`, `formatAddress` returns
the empty string when the address is missing or empty, the address unchanged
when its length is at most `startChars + endChars`, and otherwise the first
`startChars` code units, then `...`, then the last `endChars` code units of the
address, a string of length `startChars + endChars + 3` (`13` with the defaults
`6` and `4`). -/
theorem formatAddress_spec (a : List Nat) (startChars endChars : Int)
    (hs : 0 ≤ startChars) (he : 0 ≤ endChars) :
    formatAddress none startChars endChars = [] ∧
      formatAddress (some []) startChars endChars = [] ∧
      ((a.length : Int) ≤ startChars + endChars →
        formatAddress (some a) startChars endChars = a) ∧
      (startChars + endChars < (a.length : Int) →
        formatAddress (some a) startChars endChars =
            a.take startChars.toNat ++ JS.utf16 "..." ++ a.drop (a.length - endChars.toNat) ∧
          ((a.take startChars.toNat).length : Int) = startChars ∧
          ((a.drop (a.length - endChars.toNat)).length : Int) = endChars ∧
          ((formatAddress (some a) startChars endChars).length : Int) =
            startChars + endChars + 3) ∧
      (10 < a.length → (formatAddress (some a) 6 4).length = 13) := by
  refine ⟨rfl, rfl, formatAddress_short a startChars endChars, ?_, ?_⟩
  · intro h
    exact ⟨formatAddress_long a startChars endChars hs he h,
      formatAddress_long_length a _ _ hs he h⟩
  · intro h
    have := (formatAddress_long_length a 6 4 (by omega) (by omega) (by omega)).2.2
    omega

/-- Witness of C17: an account address and the defaults `6` and `4`. -/
theorem formatAddress_spec_witness :
    formatAddress (some (JS.utf16 "0x742d35Cc6635Bc0532E3D7b2b9C24B2c5f07c9E7")) 6 4 =
        JS.utf16 "0x742d...c9E7" ∧
      (formatAddress (some (JS.utf16 "0x742d35Cc6635Bc0532E3D7b2b9C24B2c5f07c9E7")) 6
        4).length = 13 :=
  ⟨by decide,
    (formatAddress_spec (JS.utf16 "0x742d35Cc6635Bc0532E3D7b2b9C24B2c5f07c9E7") 6 4
      (by decide) (by decide)).2.2.2.2 (by decide)⟩

/-- C18, the code at the failing input: with the defaults `6` and `4` the
11-character address `abcdefghijk` is rendered as the 13-character string
`abcdef...hijk`; the result is longer than the address exactly for the
addresses of 11 or 12 code units, and no longer than it for all others. -/
theorem formatAddress_can_lengthen :
    formatAddress (some (JS.utf16 "abcdefghijk")) 6 4 = JS.utf16 "abcdef...hijk" ∧
      (JS.utf16 "abcdefghijk").length = 11 ∧
      (formatAddress (some (JS.utf16 "abcdefghijk")) 6 4).length = 13 ∧
      (∀ a : List Nat,
        a.length < (formatAddress (some a) 6 4).length ↔ a.length = 11 ∨ a.length = 12) := by
  refine ⟨by decide, by decide, by decide, ?_⟩
  intro a
  by_cases h : 10 < a.length
  · have := (formatAddress_long_length a 6 4 (by omega) (by omega) (by omega)).2.2
    omega
  · rw [formatAddress_short a 6 4 (by omega)]
    omega

theorem JS.bitLengthAux_zero (fuel : Nat) : JS.bitLengthAux fuel 0 = 0 := by
  cases fuel <;> simp [JS.bitLengthAux]

theorem JS.bitLengthAux_spec (fuel n : Nat) (h : n ≤ fuel) :
    n < 2 ^ JS.bitLengthAux fuel n ∧ (0 < n → 2 ^ (JS.bitLengthAux fuel n - 1) ≤ n) := by
  induction fuel generalizing n with
  | zero =>
    have : n = 0 := by omega
    subst this
    simp [JS.bitLengthAux]
  | succ f ih =>
    unfold JS.bitLengthAux
    by_cases hn : n = 0
    · simp [hn]
    · rw [if_neg hn]
      obtain ⟨h1, h2⟩ := ih (n / 2) (by omega)
      constructor
      · rw [pow_succ]; omega
      · intro _
        rw [Nat.add_sub_cancel]
        by_cases h0 : n / 2 = 0
        · rw [h0, JS.bitLengthAux_zero]
          simp only [pow_zero]
          omega
        · have h3 := h2 (by omega)
          have hb : 1 ≤ JS.bitLengthAux f (n / 2) := by
            by_contra hc
            have e0 : JS.bitLengthAux f (n / 2) = 0 := by omega
            rw [e0] at h1
            simp only [pow_zero] at h1
            omega
          obtain ⟨k, hk⟩ : ∃ k, JS.bitLengthAux f (n / 2) = k + 1 :=
            ⟨JS.bitLengthAux f (n / 2) - 1, by omega⟩
          rw [hk] at h3 ⊢
          rw [Nat.add_sub_cancel] at h3
          rw [pow_succ]
          omega

theorem JS.pow2Pair_pos (e : Int) : 0 < (JS.pow2Pair e).1 ∧ 0 < (JS.pow2Pair e).2 := by
  unfold JS.pow2Pair
  split <;> simp

theorem JS.pow2Pair_val (e : Int) :
    ((JS.pow2Pair e).1 : ℚ) / ((JS.pow2Pair e).2 : ℚ) = (2 : ℚ) ^ e := by
  unfold JS.pow2Pair
  split
  · rename_i h
    simp only [Nat.cast_pow, Nat.cast_ofNat, Nat.cast_one, div_one]
    rw [← zpow_natCast, Int.toNat_of_nonneg h]
  · rename_i h
    simp only [Nat.cast_pow, Nat.cast_ofNat, Nat.cast_one, one_div]
    rw [← zpow_natCast, Int.toNat_of_nonneg (by omega), ← zpow_neg, neg_neg]

theorem JS.pow2Pair_le_iff (e : Int) (num den : Nat) (hden : 0 < den) :
    den * (JS.pow2Pair e).1 ≤ num * (JS.pow2Pair e).2 ↔ (2 : ℚ) ^ e ≤ (num : ℚ) / den := by
  have hp := JS.pow2Pair_pos e
  rw [← JS.pow2Pair_val, div_le_div_iff₀ (by exact_mod_cast hp.2) (by exact_mod_cast hden)]
  constructor
  · intro h
    have : ((den * (JS.pow2Pair e).1 : Nat) : ℚ) ≤ ((num * (JS.pow2Pair e).2 : Nat) : ℚ) := by
      exact_mod_cast h
    push_cast at this
    linarith
  · intro h
    have : ((den * (JS.pow2Pair e).1 : Nat) : ℚ) ≤ ((num * (JS.pow2Pair e).2 : Nat) : ℚ) := by
      push_cast
      linarith
    exact_mod_cast this

theorem JS.floorLog2_le (num den : Nat) (hnum : 0 < num) (hden : 0 < den) :
    (2 : ℚ) ^ JS.floorLog2 num den ≤ (num : ℚ) / den := by
  unfold JS.floorLog2
  dsimp only
  split
  · rename_i h
    exact (JS.pow2Pair_le_iff _ num den hden).1 h
  · have hn := (JS.bitLengthAux_spec num num (le_refl _)).2 hnum
    have hd := (JS.bitLengthAux_spec den den (le_refl _)).1
    have hbn : 1 ≤ JS.bitLength num := by
      by_contra hc
      have e0 : JS.bitLengthAux num num = 0 := by unfold JS.bitLength at hc; omega
      have := (JS.bitLengthAux_spec num num (le_refl _)).1
      rw [e0] at this
      simp only [pow_zero] at this
      omega
    have hdq : (0 : ℚ) < den := by exact_mod_cast hden
    rw [le_div_iff₀ hdq]
    have h1 : ((2 : ℚ) ^ ((JS.bitLength num : Int) - (JS.bitLength den : Int) - 1)) *
        (2 : ℚ) ^ (JS.bitLength den : Int) = (2 : ℚ) ^ ((JS.bitLength num : Int) - 1) := by
      rw [← zpow_add₀ (by norm_num : (2 : ℚ) ≠ 0)]
      congr 1
      omega
    have h2 : (2 : ℚ) ^ ((JS.bitLength num : Int) - 1) ≤ num := by
      have : ((JS.bitLength num : Int) - 1) = ((JS.bitLength num - 1 : Nat) : Int) := by omega
      rw [this, zpow_natCast]
      unfold JS.bitLength
      exact_mod_cast hn
    have h3 : (den : ℚ) ≤ (2 : ℚ) ^ (JS.bitLength den : Int) := by
      rw [zpow_natCast]
      unfold JS.bitLength
      exact_mod_cast hd.le
    have hpos : (0 : ℚ) < (2 : ℚ) ^ ((JS.bitLength num : Int) - (JS.bitLength den : Int) - 1) :=
      zpow_pos (by norm_num) _
    calc (2 : ℚ) ^ ((JS.bitLength num : Int) - (JS.bitLength den : Int) - 1) * den
        ≤ (2 : ℚ) ^ ((JS.bitLength num : Int) - (JS.bitLength den : Int) - 1) *
            (2 : ℚ) ^ (JS.bitLength den : Int) := by
          exact mul_le_mul_of_nonneg_left h3 hpos.le
      _ = (2 : ℚ) ^ ((JS.bitLength num : Int) - 1) := h1
      _ ≤ num := h2

theorem JS.roundToNumber_pos (neg : Bool) (num den : Nat) (hnum : 0 < num) (hden : 0 < den)
    (hmin : den ≤ num * 2 ^ 1074) :
    JS.roundToNumber neg num den = .Infinity neg ∨
      ∃ m q, JS.roundToNumber neg num den = .finite neg m q ∧ 0 < m := by
  have hq : (2 : ℚ) ^ max (JS.floorLog2 num den - 52) (-1074) ≤ (num : ℚ) / den := by
    rcases max_cases (JS.floorLog2 num den - 52) (-1074) with ⟨e, _⟩ | ⟨e, _⟩
    · rw [e]
      exact (zpow_le_zpow_right₀ (by norm_num) (by omega)).trans (JS.floorLog2_le num den hnum hden)
    · rw [e]
      have hdq : (0 : ℚ) < den := by exact_mod_cast hden
      rw [le_div_iff₀ hdq, zpow_neg, inv_mul_le_iff₀ (by positivity)]
      have : ((den : Nat) : ℚ) ≤ ((num * 2 ^ 1074 : Nat) : ℚ) := by exact_mod_cast hmin
      push_cast at this
      rw [show ((1074 : Int)) = ((1074 : Nat) : Int) from rfl, zpow_natCast]
      linarith
  have hdn := (JS.pow2Pair_le_iff _ num den hden).2 hq
  have hp := JS.pow2Pair_pos (max (JS.floorLog2 num den - 52) (-1074))
  have hfl : 1 ≤ num * (JS.pow2Pair (max (JS.floorLog2 num den - 52) (-1074))).2 /
      (den * (JS.pow2Pair (max (JS.floorLog2 num den - 52) (-1074))).1) :=
    (Nat.one_le_div_iff (Nat.mul_pos hden hp.1)).2 hdn
  have key : ∀ fl r d : Nat, 1 ≤ fl →
      0 < (if 2 * r < d then fl else if d < 2 * r then fl + 1
        else if fl % 2 = 0 then fl else fl + 1) := by
    intro fl r d h
    split
    · omega
    · split
      · omega
      · split <;> omega
  have hm := key _
    (num * (JS.pow2Pair (max (JS.floorLog2 num den - 52) (-1074))).2 %
      (den * (JS.pow2Pair (max (JS.floorLog2 num den - 52) (-1074))).1))
    (den * (JS.pow2Pair (max (JS.floorLog2 num den - 52) (-1074))).1) hfl
  unfold JS.roundToNumber
  rw [if_neg (by omega)]
  dsimp only
  generalize (if 2 * (num * (JS.pow2Pair (max (JS.floorLog2 num den - 52) (-1074))).2 %
      (den * (JS.pow2Pair (max (JS.floorLog2 num den - 52) (-1074))).1)) <
      den * (JS.pow2Pair (max (JS.floorLog2 num den - 52) (-1074))).1 then
      num * (JS.pow2Pair (max (JS.floorLog2 num den - 52) (-1074))).2 /
        (den * (JS.pow2Pair (max (JS.floorLog2 num den - 52) (-1074))).1)
    else if den * (JS.pow2Pair (max (JS.floorLog2 num den - 52) (-1074))).1 <
        2 * (num * (JS.pow2Pair (max (JS.floorLog2 num den - 52) (-1074))).2 %
          (den * (JS.pow2Pair (max (JS.floorLog2 num den - 52) (-1074))).1)) then
      num * (JS.pow2Pair (max (JS.floorLog2 num den - 52) (-1074))).2 /
        (den * (JS.pow2Pair (max (JS.floorLog2 num den - 52) (-1074))).1) + 1
    else if num * (JS.pow2Pair (max (JS.floorLog2 num den - 52) (-1074))).2 /
        (den * (JS.pow2Pair (max (JS.floorLog2 num den - 52) (-1074))).1) % 2 = 0 then
      num * (JS.pow2Pair (max (JS.floorLog2 num den - 52) (-1074))).2 /
        (den * (JS.pow2Pair (max (JS.floorLog2 num den - 52) (-1074))).1)
    else num * (JS.pow2Pair (max (JS.floorLog2 num den - 52) (-1074))).2 /
        (den * (JS.pow2Pair (max (JS.floorLog2 num den - 52) (-1074))).1) + 1) = m at hm ⊢
  split
  · left; rfl
  · right
    exact ⟨m, _, rfl, hm⟩

theorem JS.Number.lt_zero_finite (neg : Bool) (m : Nat) (q : Int) :
    JS.Number.lt (.finite neg m q) zero = (neg && decide (0 < m)) := by
  have hpow : 0 < 2 ^ (q - min q 0).toNat := by positivity
  have hdec : decide (JS.scaledInt neg m q (min q 0) < JS.scaledInt false 0 0 (min q 0)) =
      (neg && decide (0 < m)) := by
    unfold JS.scaledInt
    dsimp only
    rw [Nat.zero_mul]
    cases neg with
    | true =>
      by_cases hm : 0 < m
      · have := Nat.mul_pos hm hpow
        simp only [if_true, Bool.true_and, hm, decide_True, decide_eq_true_eq]
        simp only [Bool.false_eq_true, if_false]
        omega
      · have hm0 : m = 0 := by omega
        subst hm0
        simp
    | false =>
      simp only [Bool.false_eq_true, if_false, Bool.false_and, decide_eq_false_iff_not]
      omega
  unfold JS.Number.lt JS.Number.lessThan zero
  dsimp only
  rw [hdec]
  cases (neg && decide (0 < m)) <;> rfl

theorem JS.roundToNumber_exponent (neg : Bool) (num den : Nat) (neg1 : Bool) (m : Nat)
    (e : Int) (h : JS.roundToNumber neg num den = .finite neg1 m e) : -1074 ≤ e := by
  have := le_max_right (JS.floorLog2 num den - 52) (-1074)
  unfold JS.roundToNumber at h
  dsimp only at h
  split_ifs at h
  all_goals (injection h with h1 h2 h3; omega)

theorem JS.Number.add_finite (n1 : Bool) (m1 : Nat) (e1 : Int) (n2 : Bool) (m2 : Nat)
    (e2 : Int) (h : ¬ (m1 = 0 ∧ m2 = 0)) :
    JS.Number.add (.finite n1 m1 e1) (.finite n2 m2 e2) =
      JS.roundToNumber
        (decide (JS.scaledInt n1 m1 e1 (min e1 e2) + JS.scaledInt n2 m2 e2 (min e1 e2) < 0))
        ((JS.scaledInt n1 m1 e1 (min e1 e2) + JS.scaledInt n2 m2 e2 (min e1 e2)).natAbs *
          (JS.pow2Pair (min e1 e2)).1)
        (JS.pow2Pair (min e1 e2)).2 := by
  simp only [JS.Number.add]
  rw [if_neg h]

theorem JS.Number.lt_finite (n1 : Bool) (m1 : Nat) (e1 : Int) (n2 : Bool) (m2 : Nat)
    (e2 : Int) :
    JS.Number.lt (.finite n1 m1 e1) (.finite n2 m2 e2) =
      decide (JS.scaledInt n1 m1 e1 (min e1 e2) < JS.scaledInt n2 m2 e2 (min e1 e2)) := by
  unfold JS.Number.lt JS.Number.lessThan
  dsimp only
  cases decide (JS.scaledInt n1 m1 e1 (min e1 e2) < JS.scaledInt n2 m2 e2 (min e1 e2)) <;> rfl

theorem JS.Number.add_exponent (x y : JS.Number) (neg : Bool) (m : Nat) (e : Int)
    (h : x.add y = .finite neg m e) : -1074 ≤ e := by
  cases x with
  | NaN => simp [JS.Number.add] at h
  | Infinity n1 =>
    cases y with
    | NaN => simp [JS.Number.add] at h
    | Infinity n2 =>
      simp only [JS.Number.add] at h
      split_ifs at h
    | finite n2 m2 e2 => simp [JS.Number.add] at h
  | finite n1 m1 e1 =>
    cases y with
    | NaN => simp [JS.Number.add] at h
    | Infinity n2 => simp [JS.Number.add] at h
    | finite n2 m2 e2 =>
      by_cases hz : m1 = 0 ∧ m2 = 0
      · simp only [JS.Number.add] at h
        rw [if_pos hz] at h
        injection h with h1 h2 h3
        omega
      · rw [JS.Number.add_finite n1 m1 e1 n2 m2 e2 hz] at h
        exact JS.roundToNumber_exponent _ _ _ _ _ _ h

theorem JS.roundToNumber_false_lt_zero (num den : Nat) :
    JS.Number.lt (JS.roundToNumber false num den) zero = false := by
  unfold JS.roundToNumber
  dsimp only
  split_ifs
  all_goals first
    | exact (JS.Number.lt_zero_finite false _ _).trans rfl
    | rfl

theorem JS.Number.sub_fee_lt_zero (d : JS.Number)
    (hd : ∀ neg m e, d = .finite neg m e → -1074 ≤ e) :
    JS.Number.lt (d.sub demoFee) zero = JS.Number.lt d demoFee := by
  have hfee : demoFee = .finite false 4611686018427388 (-62) := by decide
  rw [hfee]
  cases d with
  | NaN => rfl
  | Infinity n => cases n <;> rfl
  | finite n m e =>
    have he := hd n m e rfl
    unfold JS.Number.sub JS.Number.neg
    dsimp only
    rw [show (!false) = true from rfl, JS.Number.add_finite n m e true 4611686018427388 (-62) (by omega),
      JS.Number.lt_finite]
    have hneg : JS.scaledInt true 4611686018427388 (-62) (min e (-62)) =
        -JS.scaledInt false 4611686018427388 (-62) (min e (-62)) := by
      unfold JS.scaledInt
      simp
    rw [hneg]
    generalize JS.scaledInt n m e (min e (-62)) = A
    generalize JS.scaledInt false 4611686018427388 (-62) (min e (-62)) = C
    rcases lt_trichotomy (A + -C) 0 with hs | hs | hs
    · have hdec : decide (A + -C < 0) = true := by simpa using hs
      have hlt : decide (A < C) = true := by
        simp only [decide_eq_true_eq]; omega
      rw [hdec, hlt]
      have hp := JS.pow2Pair_pos (min e (-62))
      have hp2 : (JS.pow2Pair (min e (-62))).2 ≤ 2 ^ 1074 := by
        unfold JS.pow2Pair
        rw [if_neg (by omega)]
        exact Nat.pow_le_pow_right (by omega) (by omega)
      have hnat : 0 < (A + -C).natAbs := by omega
      rcases JS.roundToNumber_pos true ((A + -C).natAbs * (JS.pow2Pair (min e (-62))).1)
        (JS.pow2Pair (min e (-62))).2 (Nat.mul_pos hnat hp.1) hp.2
        (by
          have h1 : 1 ≤ (A + -C).natAbs * (JS.pow2Pair (min e (-62))).1 :=
            Nat.mul_pos hnat hp.1
          calc (JS.pow2Pair (min e (-62))).2 ≤ 2 ^ 1074 := hp2
            _ = 1 * 2 ^ 1074 := (Nat.one_mul _).symm
            _ ≤ (A + -C).natAbs * (JS.pow2Pair (min e (-62))).1 * 2 ^ 1074 :=
              Nat.mul_le_mul_right _ h1) with hr | ⟨m1, q1, hr, hm⟩
      · rw [hr]; rfl
      · rw [hr, JS.Number.lt_zero_finite]
        simp [hm]
    · have hdec : decide (A + -C < 0) = false := by
        simp only [decide_eq_false_iff_not]; omega
      have hlt : decide (A < C) = false := by
        simp only [decide_eq_false_iff_not]; omega
      rw [hdec, hlt]
      exact JS.roundToNumber_false_lt_zero _ _
    · have hdec : decide (A + -C < 0) = false := by
        simp only [decide_eq_false_iff_not]; omega
      have hlt : decide (A < C) = false := by
        simp only [decide_eq_false_iff_not]; omega
      rw [hdec, hlt]
      exact JS.roundToNumber_false_lt_zero _ _

/-- Counterexample to C20 as stated: the resulting balance is not negative
exactly when `b - 0.001 < a <= b`. In the demo wallet with balance `0.0010` the
amount `5e-20` passes validation and, with the exact values of the two parsed
Numbers, `b - 0.001 < a <= b` holds, yet `b - a` rounds back to `b`, the
computed `b - a - 0.001` is `0` and the balance becomes `0.0000`. With balance
and amount `1e20` the balance becomes `-0.0010` although `b - 0.001 < a`,
evaluated in Number arithmetic, is false. -/
theorem demo_balance_negative_iff_counterexample :
    (feeRoundingState.balance = "0.0010" ∧
      feeRoundingState.sendForm.amount = "5e-20" ∧
      sendDemoTransaction_try feeRoundingState = .ok () ∧
      JS.parseFloat "0.0010" = .finite false 4611686018427388 (-62) ∧
      JS.parseFloat "5e-20" = .finite false 8307674973655724 (-117) ∧
      (4611686018427388 : ℚ) * 2 ^ (-62 : ℤ) - 1 / 1000 <
        8307674973655724 * 2 ^ (-117 : ℤ) ∧
      (8307674973655724 : ℚ) * 2 ^ (-117 : ℤ) ≤ 4611686018427388 * 2 ^ (-62 : ℤ) ∧
      ((JS.parseFloat "0.0010").sub (JS.parseFloat "5e-20")).sub demoFee =
        .finite false 0 0 ∧
      (sendDemoTransaction sampleEnv feeRoundingState).state.balance = "0.0000") ∧
    (sendDemoTransaction_try hugeBalanceState = .ok () ∧
      (sendDemoTransaction sampleEnv hugeBalanceState).state.balance = "-0.0010" ∧
      (JS.parseFloat hugeBalanceState.sendForm.amount).gt
        ((JS.parseFloat hugeBalanceState.balance).sub demoFee) = false) := by
  refine ⟨⟨by decide, by decide, by decide, by decide, by decide, ?_, ?_, by decide,
    by decide⟩, by decide, by decide, by decide⟩
  · norm_num
  · norm_num

/-- C20, amended: the balance check of the demo send does not cover the `0.001`
fee: with `b = 10.5000` and `a = 10.5` every validation passes and the resulting
balance is `-0.0010`. For every demo send that passes validation the balance
becomes the Number `b - a - 0.001` rendered by `toFixed(4)`, and that Number is
negative exactly when the Number `b - a` is less than the Number `0.001`, the
subtractions and comparisons being those of Number arithmetic. -/
theorem demo_fee_not_covered :
    (sendDemoTransaction_try wholeBalanceState = .ok () ∧
      wholeBalanceState.balance = "10.5000" ∧
      wholeBalanceState.sendForm.amount = "10.5" ∧
      (sendDemoTransaction sampleEnv wholeBalanceState).state.balance = "-0.0010") ∧
    (∀ (env : Env) (s : WalletState), sendDemoTransaction_try s = .ok () →
      (sendDemoTransaction env s).state.balance =
          (((JS.parseFloat s.balance).sub (JS.parseFloat s.sendForm.amount)).sub
            (JS.parseFloat "0.001")).toFixed 4 ∧
        JS.Number.lt
            (((JS.parseFloat s.balance).sub (JS.parseFloat s.sendForm.amount)).sub
              (JS.parseFloat "0.001")) zero =
          JS.Number.lt ((JS.parseFloat s.balance).sub (JS.parseFloat s.sendForm.amount))
            (JS.parseFloat "0.001")) := by
  have hfee : demoFee = JS.parseFloat "0.001" := by decide
  refine ⟨by decide, ?_⟩
  intro env s h
  constructor
  · unfold sendDemoTransaction
    rw [h, hfee]
  · rw [← hfee]
    exact JS.Number.sub_fee_lt_zero _
      (fun neg m e he => JS.Number.add_exponent _ _ neg m e he)

/-- Witness of C20: the send of the whole balance passes validation and the
computed Number is negative. -/
theorem demo_fee_not_covered_witness :
    sendDemoTransaction_try wholeBalanceState = .ok () ∧
      JS.Number.lt ((JS.parseFloat wholeBalanceState.balance).sub
        (JS.parseFloat wholeBalanceState.sendForm.amount)) (JS.parseFloat "0.001") = true ∧
      JS.Number.lt
        (((JS.parseFloat wholeBalanceState.balance).sub
          (JS.parseFloat wholeBalanceState.sendForm.amount)).sub
            (JS.parseFloat "0.001")) zero = true := by
  have h := (demo_fee_not_covered.2 sampleEnv wholeBalanceState (by decide)).2
  refine ⟨by decide, by decide, ?_⟩
  rw [h]
  decide

/-- Counterexample to C11 as stated: `getBlockNumber` and every block fetch of
the window succeed and `maxTransactions = 10 >= 0`, three transactions of the
window match the address, yet the function returns the empty list: no provider
is injected, so `weiToEth` throws on the first match and the `catch` returns
`[]`. -/
theorem utilsGetTransactionHistory_conversion_counterexample :
    noInjectedEnv.getBlockNumber = .ok 3 ∧
      (noInjectedEnv.getBlock 3).isOk = true ∧
      (noInjectedEnv.getBlock 2).isOk = true ∧
      (noInjectedEnv.getBlock 1).isOk = true ∧
      ((blockTransactions noInjectedEnv 3 ++ blockTransactions noInjectedEnv 2 ++
          blockTransactions noInjectedEnv 1).filter
        (fun tx => matchesAddress noInjectedEnv lowerCaseAddress tx.from_ ||
          matchesAddress noInjectedEnv lowerCaseAddress tx.to_)).map (fun tx => tx.hash) =
        ["0x3a", "0x3b", "0x2b"] ∧
      weiToEth noInjectedEnv "1000" = .error "MetaMask is not installed" ∧
      utilsGetTransactionHistory noInjectedEnv lowerCaseAddress 100 10 =
        ([], [ProviderCall.getBlockNumber, ProviderCall.getBlock 3]) := by
  decide

theorem connectWallet_netGetId_error (env : Env) (s : WalletState) (account0 : String)
    (rest : List String) (msg : String) (heth : env.ethereum = true)
    (hacc : env.requestAccounts = .ok (account0 :: rest))
    (hnet : env.netGetId = .error msg) :
    connectWallet env s =
      { state := { s with
          connectLoading := false
          error := msg
          web3 := some env.newWeb3
          account := account0
          isConnected := true }
        calls := [.requestAccounts, .netGetId] } := by
  unfold connectWallet
  dsimp only
  rw [if_pos heth, hacc]
  dsimp only
  rw [hnet]

theorem connectWallet_isConnected_unchanged (env : Env) (s : WalletState)
    (h : env.ethereum = false ∨ env.requestAccounts = .ok [] ∨
      ∃ msg, env.requestAccounts = .error msg) :
    (connectWallet env s).state.isConnected = s.isConnected := by
  unfold connectWallet
  dsimp only
  by_cases heth : env.ethereum = true
  · rw [if_pos heth]
    rcases h with h | h | ⟨msg, h⟩
    · rw [heth] at h; exact absurd h (by decide)
    · rw [h]
    · rw [h]
  · rw [if_neg heth]

/-- C21: a failed `connectWallet` does not always leave the view-model
disconnected. From the initial state, with a provider that grants access to an
account and then fails the network-id query, `connectWallet` ends with the
error message set while `isConnected` is true and `account` is the first
returned account, `networkName` is empty, `balance` is `0` and the history is
empty; in general that failure writes `web3`, `account`, `isConnected`,
`error` and `connectLoading` only. Whenever the provider is absent or returns no
accounts (or rejects the access request), `isConnected` stays unchanged. -/
theorem connectWallet_failure_can_stay_connected :
    ((connectWallet netFailEnv WalletState.initial).state.error = "network id unavailable" ∧
      (connectWallet netFailEnv WalletState.initial).state.isConnected = true ∧
      (connectWallet netFailEnv WalletState.initial).state.account =
        "0x742d35cc6635bc0532e3d7b2b9c24b2c5f07c9e7" ∧
      netFailEnv.requestAccounts = .ok ["0x742d35cc6635bc0532e3d7b2b9c24b2c5f07c9e7"] ∧
      (connectWallet netFailEnv WalletState.initial).state.networkName = "" ∧
      (connectWallet netFailEnv WalletState.initial).state.balance = "0" ∧
      (connectWallet netFailEnv WalletState.initial).state.transactions = [] ∧
      (connectWallet netFailEnv WalletState.initial).state.connectLoading = false) ∧
    (∀ (env : Env) (s : WalletState) (account0 : String) (rest : List String)
        (msg : String),
      env.ethereum = true → env.requestAccounts = .ok (account0 :: rest) →
      env.netGetId = .error msg →
      (connectWallet env s).state =
          { s with
            connectLoading := false
            error := msg
            web3 := some env.newWeb3
            account := account0
            isConnected := true } ∧
        (connectWallet env s).state.error = msg ∧
        (connectWallet env s).state.isConnected = true ∧
        (connectWallet env s).state.account = account0 ∧
        (connectWallet env s).state.networkName = s.networkName ∧
        (connectWallet env s).state.balance = s.balance ∧
        (connectWallet env s).state.transactions = s.transactions) ∧
    (∀ (env : Env) (s : WalletState),
      (env.ethereum = false ∨ env.requestAccounts = .ok []) →
      (connectWallet env s).state.isConnected = s.isConnected) ∧
    (∀ (env : Env) (s : WalletState) (msg : String),
      env.requestAccounts = .error msg →
      (connectWallet env s).state.isConnected = s.isConnected) := by
  refine ⟨by decide, ?_, ?_, ?_⟩
  · intro env s account0 rest msg heth hacc hnet
    rw [connectWallet_netGetId_error env s account0 rest msg heth hacc hnet]
    exact ⟨rfl, rfl, rfl, rfl, rfl, rfl, rfl⟩
  · intro env s h
    exact connectWallet_isConnected_unchanged env s
      (h.elim Or.inl (fun h2 => Or.inr (Or.inl h2)))
  · intro env s msg h
    exact connectWallet_isConnected_unchanged env s (Or.inr (Or.inr ⟨msg, h⟩))

/-- Witness of C21: from the initial state, the provider that fails the
network-id query leaves `isConnected` true; without a provider, or without
accounts, `isConnected` stays false and the error is set. -/
theorem connectWallet_failure_can_stay_connected_witness :
    (connectWallet netFailEnv WalletState.initial).state.isConnected = true ∧
      (connectWallet noProviderEnv WalletState.initial).state.isConnected = false ∧
      (connectWallet noProviderEnv WalletState.initial).state.error =
        "MetaMask is not installed. Please install MetaMask to use this wallet." ∧
      (connectWallet noAccountsEnv WalletState.initial).state.isConnected = false ∧
      (connectWallet noAccountsEnv WalletState.initial).state.error = "No accounts found" :=
  ⟨(connectWallet_failure_can_stay_connected.2.1 netFailEnv WalletState.initial _ [] _
      rfl rfl rfl).2.2.1,
    connectWallet_failure_can_stay_connected.2.2.1 noProviderEnv WalletState.initial
      (Or.inl rfl),
    by decide,
    connectWallet_failure_can_stay_connected.2.2.1 noAccountsEnv WalletState.initial
      (Or.inr rfl),
    by decide⟩

end DefiGuard
